import Mathlib

/-!
Shallow embedding, in Lean 4, of the exception-classification, datetime-filter
normalization and analytics-delivery subsystem of the mcp-zenml repository
(files `server/zenml_server.py` and `server/zenml_mcp_analytics.py`), together
with theorems settling the specification claims about that subsystem.

Python strings are modelled as `List Char` (`PyStr`); Python functions that can
raise are modelled in the `Except PyErr` monad.  The regular expressions of the
source are modelled as explicit shape parsers over `List Char`; the `\d` class
is modelled as the ASCII digits (the inputs the spec talks about are ASCII).
-/

namespace MCPZenml

instance exceptDecEq {ε α : Type} [DecidableEq ε] [DecidableEq α] :
    DecidableEq (Except ε α)
  | .ok a, .ok b =>
      if h : a = b then .isTrue (by rw [h]) else .isFalse (by simp [h])
  | .ok _, .error _ => .isFalse (by simp)
  | .error _, .ok _ => .isFalse (by simp)
  | .error e, .error f =>
      if h : e = f then .isTrue (by rw [h]) else .isFalse (by simp [h])

abbrev PyStr := List Char

/-- Convert a Lean string literal to the `List Char` representation. -/
def pys (s : String) : PyStr := s.data

/-- Exceptions that the modelled Python code can raise and that are not caught
by the surrounding handlers: `OverflowError` escaping
`_parse_iso_to_zenml`/`_coerce_to_int`, `UnboundLocalError` escaping
`_on_shutdown`, and an arbitrary exception escaping a user-defined
`__str__` during `_classify_exception`. -/
inductive PyErr
  | overflowError
  | unboundLocalError
  | strRaises
  deriving DecidableEq, Repr

/-! ## Python string primitives -/

/-- The ASCII whitespace characters stripped by Python `str.strip()`. -/
def pyIsSpace (c : Char) : Bool :=
  c = ' ' || c = '\t' || c = '\n' || c = '\r' || c = '\x0b' || c = '\x0c'

/-- Python `str.strip()`. -/
def pyStrip (l : PyStr) : PyStr :=
  ((l.dropWhile pyIsSpace).reverse.dropWhile pyIsSpace).reverse

/-- Python `a.startswith(p)`. -/
def startsWithStr : PyStr → PyStr → Bool
  | [], _ => true
  | _ :: _, [] => false
  | p :: ps, c :: cs => p = c && startsWithStr ps cs

/-- Python `p in l` (substring containment). -/
def containsSub (pat : PyStr) : PyStr → Bool
  | [] => pat.isEmpty
  | c :: cs => startsWithStr pat (c :: cs) || containsSub pat cs

/-- ASCII lowercase conversion, modelling Python `str.lower()` on the ASCII
strings the classifier compares against. -/
def pyLowerChar (c : Char) : Char :=
  if 'A' ≤ c && c ≤ 'Z' then Char.ofNat (c.toNat + 32) else c

/-- Python `str.lower()`. -/
def pyLower (l : PyStr) : PyStr := l.map pyLowerChar

/-- Python `s.partition(":")`: `some (head, tail)` when a colon occurs,
splitting at the first one; `none` when the separator is absent. -/
def partitionColon : PyStr → Option (PyStr × PyStr)
  | [] => none
  | c :: r =>
      if c = ':' then some ([], r)
      else match partitionColon r with
           | some (h, t) => some (c :: h, t)
           | none => none

/-- Python `s.split(",", 1)` on a string known to contain a comma: splits at
the first comma. -/
def splitComma1 : PyStr → PyStr × PyStr
  | [] => ([], [])
  | c :: r =>
      if c = ',' then ([], r)
      else
        let p := splitComma1 r
        (c :: p.1, p.2)

/-! ## Regular-expression shape parsers

`_DATE_ONLY_RE`, `_ISO_DT_RE`, `_SPACE_FRAC_RE` and `_RANGE_RE` from
`zenml_server.py`, modelled as explicit parsers that expose the decomposition
of a matching string. -/

/-- Consume exactly `n` ASCII digits, returning them and the rest. -/
def takeDigits : Nat → PyStr → Option (PyStr × PyStr)
  | 0, l => some ([], l)
  | _ + 1, [] => none
  | n + 1, c :: l =>
      if c.isDigit then
        match takeDigits n l with
        | some (a, r) => some (c :: a, r)
        | none => none
      else none

/-- Consume one or more ASCII digits greedily (`\d+`). -/
def takeDigits1 (l : PyStr) : Option (PyStr × PyStr) :=
  let p := l.span Char.isDigit
  if p.1.isEmpty then none else some p

/-- Numeric value of a digit string (most significant first). -/
def digitsVal (l : PyStr) : Nat :=
  l.foldl (fun a c => 10 * a + (c.toNat - 48)) 0

/-- `_DATE_ONLY_RE` (`^\d{4}-\d{2}-\d{2}$`), returning the three digit groups. -/
def dateOnlyShape (l : PyStr) : Option (PyStr × PyStr × PyStr) :=
  match takeDigits 4 l with
  | some (y4, '-' :: r1) =>
      match takeDigits 2 r1 with
      | some (mo2, '-' :: r2) =>
          match takeDigits 2 r2 with
          | some (d2, []) => some (y4, mo2, d2)
          | _ => none
      | _ => none
  | _ => none

/-- Boolean form of `_DATE_ONLY_RE.match`. -/
def dateOnlyRe (l : PyStr) : Bool := (dateOnlyShape l).isSome

/-- Components of a string matching `_ISO_DT_RE`. -/
structure IsoParts where
  y : Nat
  mo : Nat
  dy : Nat
  hh : Nat
  mi : Nat
  ss : Option Nat
  hasFrac : Bool
  /-- Timezone suffix: `none` for a naive string; `some (isPlus, h, m)` for a
  `±HH:MM` offset.  A trailing `Z` is recorded as `some (true, 0, 0)` because
  `_parse_iso_to_zenml` rewrites it to `+00:00` before parsing. -/
  tz : Option (Bool × Nat × Nat)
  deriving DecidableEq, Repr

/-- Trailing `(?:Z|[+-]\d{2}:\d{2})?$` of `_ISO_DT_RE`. -/
def parseTzEnd : PyStr → Option (Option (Bool × Nat × Nat))
  | [] => some none
  | ['Z'] => some (some (true, 0, 0))
  | c :: r =>
      if c = '+' || c = '-' then
        match takeDigits 2 r with
        | some (h2, ':' :: r2) =>
            match takeDigits 2 r2 with
            | some (m2, []) => some (some (c = '+', digitsVal h2, digitsVal m2))
            | _ => none
        | _ => none
      else none

/-- `(?:\.\d+)?` followed by the timezone tail. -/
def parseFracTz : PyStr → Option (Bool × Option (Bool × Nat × Nat))
  | '.' :: r =>
      match takeDigits1 r with
      | some (_, r2) => (parseTzEnd r2).map (fun tz => (true, tz))
      | none => none
  | l => (parseTzEnd l).map (fun tz => (false, tz))

/-- `(?::\d{2})?` followed by fraction and timezone tails. -/
def parseSecFracTz : PyStr → Option (Option Nat × Bool × Option (Bool × Nat × Nat))
  | ':' :: r =>
      match takeDigits 2 r with
      | some (s2, r2) =>
          (parseFracTz r2).map (fun p => (some (digitsVal s2), p.1, p.2))
      | none => none
  | l => (parseFracTz l).map (fun p => (none, p.1, p.2))

/-- `_ISO_DT_RE`
(`^\d{4}-\d{2}-\d{2}T\d{2}:\d{2}(?::\d{2})?(?:\.\d+)?(?:Z|[+-]\d{2}:\d{2})?$`),
returning the parsed components. -/
def parseIsoShape (l : PyStr) : Option IsoParts :=
  match takeDigits 4 l with
  | some (y4, '-' :: r1) =>
      match takeDigits 2 r1 with
      | some (mo2, '-' :: r2) =>
          match takeDigits 2 r2 with
          | some (d2, 'T' :: r3) =>
              match takeDigits 2 r3 with
              | some (h2, ':' :: r4) =>
                  match takeDigits 2 r4 with
                  | some (mi2, r5) =>
                      (parseSecFracTz r5).map (fun p =>
                        { y := digitsVal y4, mo := digitsVal mo2, dy := digitsVal d2,
                          hh := digitsVal h2, mi := digitsVal mi2,
                          ss := p.1, hasFrac := p.2.1, tz := p.2.2 })
                  | none => none
              | _ => none
          | _ => none
      | _ => none
  | _ => none

/-- Boolean form of `_ISO_DT_RE.match`. -/
def isoRe (l : PyStr) : Bool := (parseIsoShape l).isSome

/-- `_SPACE_FRAC_RE` (`^(\d{4}-\d{2}-\d{2} \d{2}:\d{2}:\d{2})\.\d+$`), returning
the captured group. -/
def spaceFracShape (l : PyStr) : Option PyStr :=
  match takeDigits 4 l with
  | some (y4, '-' :: r1) =>
      match takeDigits 2 r1 with
      | some (mo2, '-' :: r2) =>
          match takeDigits 2 r2 with
          | some (d2, ' ' :: r3) =>
              match takeDigits 2 r3 with
              | some (h2, ':' :: r4) =>
                  match takeDigits 2 r4 with
                  | some (mi2, ':' :: r5) =>
                      match takeDigits 2 r5 with
                      | some (s2, '.' :: r6) =>
                          match takeDigits1 r6 with
                          | some (_, []) =>
                              some (y4 ++ '-' :: mo2 ++ '-' :: d2 ++ ' ' ::
                                    h2 ++ ':' :: mi2 ++ ':' :: s2)
                          | _ => none
                      | _ => none
                  | _ => none
              | _ => none
          | _ => none
      | _ => none
  | _ => none

/-- Scanner for the lazy `(?P<lower>.+?)\.\.(?P<upper>.+)$` part of
`_RANGE_RE`: finds the earliest split with a nonempty lower part, a literal
`..`, and a nonempty upper part.  `acc` holds the lower candidate reversed. -/
def rangeFind (acc : PyStr) : PyStr → Option (PyStr × PyStr)
  | c :: rest =>
      match acc, c, rest with
      | _ :: _, '.', '.' :: u :: us => some (acc.reverse, u :: us)
      | _, _, _ => rangeFind (c :: acc) rest
  | [] => none

/-- `_RANGE_RE` (`^range:(?P<lower>.+?)\.\.(?P<upper>.+)$`). -/
def rangeRe : PyStr → Option (PyStr × PyStr)
  | 'r' :: 'a' :: 'n' :: 'g' :: 'e' :: ':' :: rest => rangeFind [] rest
  | _ => none

/-! ## Calendar arithmetic

Model of the parts of `datetime.fromisoformat`, `astimezone` and `strftime`
that `_parse_iso_to_zenml` exercises on `_ISO_DT_RE`-shaped inputs. -/

/-- Gregorian leap year. -/
def isLeap (y : Nat) : Bool := (y % 4 = 0 && y % 100 ≠ 0) || y % 400 = 0

/-- Length of a month. -/
def daysInMonth (y mo : Nat) : Nat :=
  if mo = 2 then (if isLeap y then 29 else 28)
  else if mo = 4 || mo = 6 || mo = 9 || mo = 11 then 30
  else 31

/-- Days from 0001-01-01 to the start of year `y` (proleptic Gregorian). -/
def daysBeforeYear (y : Nat) : Nat :=
  let n := y - 1
  365 * n + n / 4 - n / 100 + n / 400

/-- Days from the start of year `y` to the start of month `mo`. -/
def daysBeforeMonth (y mo : Nat) : Nat :=
  (List.range (mo - 1)).foldl (fun a m => a + daysInMonth y (m + 1)) 0

/-- Day number of a civil date, with 0001-01-01 as day 0. -/
def daysFromCivil (y mo d : Nat) : Nat :=
  daysBeforeYear y + daysBeforeMonth y mo + (d - 1)

/-- Seconds since 0001-01-01 00:00:00. -/
def secsFromCivil (y mo d hh mi ss : Nat) : Nat :=
  86400 * daysFromCivil y mo d + 3600 * hh + 60 * mi + ss

/-- `datetime.max` in seconds since 0001-01-01 00:00:00; `astimezone` raises
`OverflowError` outside `0 .. maxDatetimeSecs`. -/
def maxDatetimeSecs : Nat := secsFromCivil 9999 12 31 23 59 59

/-- Civil date of a day number (inverse of `daysFromCivil`). -/
def civilFromDays (day : Nat) : Nat × Nat × Nat :=
  let z := day + 306
  let era := z / 146097
  let doe := z % 146097
  let yoe := (doe - doe / 1460 + doe / 36524 - doe / 146096) / 365
  let doy := doe - (365 * yoe + yoe / 4 - yoe / 100)
  let mp := (5 * doy + 2) / 153
  let d := doy - (153 * mp + 2) / 5 + 1
  let m := if mp < 10 then mp + 3 else mp - 9
  let y := yoe + era * 400
  (if m ≤ 2 then y + 1 else y, m, d)

/-- One decimal digit as a character. -/
def digitChar (n : Nat) : Char :=
  if n = 0 then '0' else if n = 1 then '1' else if n = 2 then '2'
  else if n = 3 then '3' else if n = 4 then '4' else if n = 5 then '5'
  else if n = 6 then '6' else if n = 7 then '7' else if n = 8 then '8' else '9'

/-- Decimal digits of `n`, given enough fuel (any `fuel > n` suffices). -/
def natDigitsAux : Nat → Nat → PyStr
  | 0, _ => []
  | fuel + 1, n => if n = 0 then [] else natDigitsAux fuel (n / 10) ++ [digitChar (n % 10)]

/-- Decimal representation of a natural number. -/
def natDigits (n : Nat) : PyStr := if n = 0 then ['0'] else natDigitsAux (n + 1) n

/-- Zero-pad on the left to width `w` (`strftime` field padding). -/
def zfill (w : Nat) (l : PyStr) : PyStr := List.replicate (w - l.length) '0' ++ l

/-- Two-digit `strftime` field (`%m`, `%d`, `%H`, `%M`, `%S`). -/
def fmt2 (n : Nat) : PyStr := zfill 2 (natDigits n)

/-- Four-digit `strftime` field (`%Y`). -/
def fmt4 (n : Nat) : PyStr := zfill 4 (natDigits n)

/-- `dt.strftime("%Y-%m-%d %H:%M:%S")`. -/
def strftimeZenml (y mo d hh mi ss : Nat) : PyStr :=
  fmt4 y ++ '-' :: fmt2 mo ++ '-' :: fmt2 d ++ ' ' ::
    fmt2 hh ++ ':' :: fmt2 mi ++ ':' :: fmt2 ss

/-- Validity of the timezone offset accepted by `fromisoformat`. -/
def tzFieldsOk : Option (Bool × Nat × Nat) → Bool
  | none => true
  | some (_, th, tm) => th ≤ 23 && tm ≤ 59

/-- `_parse_iso_to_zenml`: parse an `_ISO_DT_RE`-shaped ISO-8601 string,
convert an aware value to UTC, and format it as `YYYY-MM-DD HH:MM:SS`.
`fromisoformat` failures (`ValueError`) are caught and yield `none`; an
`OverflowError` raised by `astimezone` is not caught and escapes. -/
def parse_iso_to_zenml (s : PyStr) : Except PyErr (Option PyStr) :=
  match parseIsoShape s with
  | none => .ok none
  | some p =>
      if 1 ≤ p.y ∧ 1 ≤ p.mo ∧ p.mo ≤ 12 ∧ 1 ≤ p.dy ∧ p.dy ≤ daysInMonth p.y p.mo ∧
          p.hh ≤ 23 ∧ p.mi ≤ 59 ∧ p.ss.getD 0 ≤ 59 ∧ tzFieldsOk p.tz then
        match p.tz with
        | none => .ok (some (strftimeZenml p.y p.mo p.dy p.hh p.mi (p.ss.getD 0)))
        | some (sgn, th, tm) =>
            let base : Int := (secsFromCivil p.y p.mo p.dy p.hh p.mi (p.ss.getD 0) : Nat)
            let off : Int := (if sgn then 1 else -1) * (3600 * th + 60 * tm)
            let tot : Int := base - off
            if tot < 0 ∨ (maxDatetimeSecs : Int) < tot then .error .overflowError
            else
              let n := tot.toNat
              let c := civilFromDays (n / 86400)
              let rem := n % 86400
              .ok (some (strftimeZenml c.1 c.2.1 c.2.2 (rem / 3600) (rem % 3600 / 60) (rem % 60)))
      else .ok none

/-! ## The datetime filter normalizer -/

/-- `_KNOWN_OPS`. -/
def KNOWN_OPS : List PyStr :=
  [pys "equals", pys "notequals", pys "contains", pys "startswith", pys "endswith",
   pys "oneof", pys "gte", pys "gt", pys "lte", pys "lt", pys "in"]

/-- `_UPPER_BOUND_OPS`. -/
def UPPER_BOUND_OPS : List PyStr := [pys "lte", pys "lt"]

/-- `_norm_datetime_token`. -/
def norm_datetime_token (upper_bound : Bool) (s0 : PyStr) : Except PyErr PyStr :=
  let s := pyStrip s0
  match (if isoRe s then parse_iso_to_zenml s else .ok none) with
  | .error e => .error e
  | .ok (some parsed) => .ok parsed
  | .ok none =>
      match spaceFracShape s with
      | some g => .ok g
      | none =>
          if dateOnlyRe s then
            .ok (s ++ (if upper_bound then pys " 23:59:59" else pys " 00:00:00"))
          else .ok s

/-- Normalize an `in:`-style pair: both sides of the first comma are
normalized independently (lower bound, then upper bound) and rejoined.
Shared by the `range:` rewrite and the `in:` operator handling of
`_normalize_datetime_filter`. -/
def normalizePair (lo hi : PyStr) : Except PyErr PyStr :=
  match norm_datetime_token false lo with
  | .error e => .error e
  | .ok l =>
      match norm_datetime_token true hi with
      | .error e => .error e
      | .ok u => .ok (pys "in:" ++ l ++ ',' :: u)

/-- `_normalize_datetime_filter`. -/
def normalize_datetime_filter (value : PyStr) : Except PyErr PyStr :=
  let raw := pyStrip value
  if raw = [] then .ok value
  else
    match rangeRe raw with
    | some lu => normalizePair lu.1 lu.2
    | none =>
        let opRest : Option PyStr × PyStr :=
          match partitionColon raw with
          | some ht => if ht.1 ∈ KNOWN_OPS then (some ht.1, ht.2) else (none, raw)
          | none => (none, raw)
        match opRest.1 with
        | some op =>
            if op = pys "in" ∧ ',' ∈ opRest.2 then
              normalizePair (splitComma1 opRest.2).1 (splitComma1 opRest.2).2
            else
              match norm_datetime_token (op ∈ UPPER_BOUND_OPS) opRest.2 with
              | .error e => .error e
              | .ok n => .ok (op ++ ':' :: n)
        | none => norm_datetime_token false raw

/-! ## Exception classification (`_classify_exception`) -/

/-- Values stored in the `details` and session-property mappings and in
event properties: strings, ints (Python `bool` values are also tracked as a
separate case), and `None`. -/
inductive DetailVal
  | vs (s : PyStr)
  | vi (n : Int)
  | vb (b : Bool)
  | vnone
  deriving DecidableEq, Repr

/-- A Python `dict` with string keys, as an insertion-ordered association
list with unique keys. -/
abbrev PyDict (α : Type) := List (PyStr × α)

/-- `d[k] = v`: overwrite in place, or append a fresh key. -/
def dictSet {α : Type} (k : PyStr) (v : α) : PyDict α → PyDict α
  | [] => [(k, v)]
  | (k', v') :: rest => if k' = k then (k, v) :: rest else (k', v') :: dictSet k v rest

/-- `d.get(k)`. -/
def dictGet {α : Type} (k : PyStr) : PyDict α → Option α
  | [] => none
  | (k', v') :: rest => if k' = k then some v' else dictGet k rest

/-- `d.update(props)`. -/
def dictUpdate {α : Type} (d : PyDict α) (props : PyDict α) : PyDict α :=
  props.foldl (fun acc kv => dictSet kv.1 kv.2 acc) d

/-- `d.setdefault(k, v)`. -/
def dictSetdefault {α : Type} (k : PyStr) (v : α) (d : PyDict α) : PyDict α :=
  if (dictGet k d).isSome then d else d ++ [(k, v)]

abbrev Details := PyDict DetailVal

/-- A Python exception value, reduced to the observations `_classify_exception`
makes of it: class name, defining module, the result of `str(exc)` (`none`
models a `__str__` that itself raises), and the `isinstance` facts for the
classes tested by the classifier.  `isImportError` covers `ModuleNotFoundError`
too, since that is a subclass of `ImportError`. -/
structure PyExc where
  raw_type : PyStr
  exc_module : PyStr
  strval : Option PyStr
  isHTTPError : Bool
  isValueError : Bool
  isImportError : Bool
  isTimeout : Bool
  isConnectionError : Bool
  isRuntimeError : Bool
  deriving DecidableEq, Repr

/-- `str(exc)`: raises when the `__str__` of the exception raises. -/
def pyStrOfExc (exc : PyExc) : Except PyErr PyStr :=
  match exc.strval with
  | some s => .ok s
  | none => .error .strRaises

/-- The validation-error detection predicate of `_classify_exception`:
class named `ValidationError`, or a pydantic module with `Validation` in the
class name. -/
def is_validation (exc : PyExc) : Bool :=
  exc.raw_type = pys "ValidationError" ||
    (containsSub (pys "pydantic") exc.exc_module &&
      containsSub (pys "Validation") exc.raw_type)

/-- `_ERROR_MISSING_ENV_RE` (`^(?P<var>[A-Z0-9_]+) environment variable not set$`). -/
def envVarMatch (l : PyStr) : Option PyStr :=
  let p := l.span (fun c => ('A' ≤ c && c ≤ 'Z') || c.isDigit || c = '_')
  if p.1 ≠ [] ∧ p.2 = pys " environment variable not set" then some p.1 else none

/-- Decimal rendering of a Python `int` inside an f-string. -/
def intRepr (n : Int) : PyStr :=
  if n < 0 then '-' :: natDigits n.natAbs else natDigits n.toNat

/-- The canned filter-syntax help appended for `list_*` tools. -/
def filterSyntaxBlock : PyStr :=
  pys "\n\nFILTER SYNTAX REFERENCE:\n- Operators: gte:, lte:, gt:, lt:, contains:, startswith:, oneof:, in:\n- Datetime format: YYYY-MM-DD HH:MM:SS (e.g. gte:2026-02-01 00:00:00)\n- Date-only and ISO-8601 inputs are auto-normalized\n- Date range: in:2026-02-01 00:00:00,2026-02-07 23:59:59"

/-- `_classify_exception`.  `devMode` stands for the module-level
`analytics.DEV_MODE` flag read in the default branch. -/
def classify_exception (devMode : Bool) (tool_name : PyStr) (exc : PyExc)
    (http_status_code : Option Int) : Except PyErr (PyStr × PyStr × Details) :=
  let raw_type := exc.raw_type
  let details0 : Details := [(pys "raw_type", .vs raw_type)]
  if exc.isHTTPError then
    let details := match http_status_code with
      | some st => dictSet (pys "http_status_code") (.vi st) details0
      | none => details0
    if http_status_code = some 401 then
      .ok (pys "AuthenticationError",
           pys "Authentication failed. Please check your API key.", details)
    else if http_status_code = some 403 then
      .ok (pys "AuthenticationError",
           pys "Authorization failed. Your API key may not have access.", details)
    else if http_status_code = some 404 then
      if tool_name = pys "get_step_logs" then
        .ok (pys "NotFound",
             pys "Logs not found. Please check the step ID. Also note that if the step was run on a stack with a local or non-cloud-based artifact store then no logs will have been stored by ZenML.",
             details)
      else if tool_name = pys "get_deployment_logs" then
        .ok (pys "NotFound",
             pys "Deployment not found or logs unavailable. Please check the deployment name/ID. Note that log availability depends on the deployer type and infrastructure configuration.",
             details)
      else .ok (pys "NotFound", pys "Resource not found (HTTP 404).", details)
    else
      match http_status_code with
      | some st =>
          if 400 ≤ st ∧ st < 500 then
            .ok (pys "ConfigurationError",
                 pys "Request failed (HTTP " ++ intRepr st ++
                   pys "). Please check your inputs and configuration.", details)
          else if 500 ≤ st then
            .ok (pys "UpstreamError",
                 pys "ZenML server error (HTTP " ++ intRepr st ++
                   pys "). Please try again later.", details)
          else .ok (pys "UpstreamError", pys "Request failed.", details)
      | none => .ok (pys "UpstreamError", pys "Request failed.", details)
  else if is_validation exc then
    match pyStrOfExc exc with
    | .error e => .error e
    | .ok s =>
        let snippet := s.take 300
        let details := dictSet (pys "validation_error") (.vs snippet) details0
        let msg := pys "Validation failed. Please check your inputs.\n\n" ++ snippet
        let msg :=
          if startsWithStr (pys "list_") tool_name then msg ++ filterSyntaxBlock else msg
        .ok (pys "ValidationError", msg, details)
  else
    match (if exc.isValueError then
             match pyStrOfExc exc with
             | .error e => .error e
             | .ok m => .ok (envVarMatch (pyStrip m))
           else (.ok none : Except PyErr (Option PyStr))) with
    | .error e => .error e
    | .ok (some var) =>
        .ok (pys "ConfigurationError",
             pys "Missing required environment variable: " ++ var ++ pys ".",
             dictSet (pys "missing_env_var") (.vs var) details0)
    | .ok none =>
        if exc.isImportError then
          match pyStrOfExc exc with
          | .error e => .error e
          | .ok s =>
              .ok (pys "DependencyMissing",
                   pys "Missing dependency or integration: " ++ s,
                   dictSet (pys "import_error") (.vs s) details0)
        else if exc.isTimeout || exc.isConnectionError then
          .ok (pys "UpstreamError",
               pys "Could not reach ZenML server. Please check network connectivity and ZENML_STORE_URL.",
               dictSet (pys "connection_error") (.vs raw_type) details0)
        else if raw_type = pys "CredentialsNotValid" ∨ raw_type = pys "AuthorizationException" then
          .ok (pys "AuthenticationError",
               pys "Authentication to ZenML failed. Check your ZENML_STORE_API_KEY.",
               details0)
        else
          match pyStrOfExc exc with
          | .error e => .error e
          | .ok msg =>
              if containsSub (pys "No project is currently set as active") msg then
                .ok (pys "ProjectNotConfigured",
                     pys "No project is currently set as active. Set ZENML_ACTIVE_PROJECT_ID (or configure an active project in ZenML).",
                     details0)
              else if containsSub (pys "ZenML") msg &&
                  (containsSub (pys "version") (pyLower msg) ||
                    containsSub (pys "incompatible") (pyLower msg)) then
                .ok (pys "VersionMismatch",
                     pys "Version mismatch between this MCP server and your ZenML installation/server.",
                     dictSet (pys "version_message") (.vs (msg.take 200)) details0)
              else if exc.isImportError || exc.isRuntimeError then
                .ok (pys "UnexpectedError",
                     pys "Error in " ++ tool_name ++ pys ": " ++ msg, details0)
              else if devMode then
                .ok (pys "UnexpectedError",
                     pys "Error in " ++ tool_name ++ pys ": " ++ msg, details0)
              else
                .ok (pys "UnexpectedError",
                     pys "Error in " ++ tool_name ++ pys ": " ++ raw_type, details0)

/-! ## Analytics module state (`zenml_mcp_analytics.py`)

The module-level globals of `zenml_mcp_analytics.py` that the verified claims
touch, gathered into one state record.  Environment-dependent configuration
(`ANALYTICS_ENABLED`, `DEV_MODE`, `ANALYTICS_DEBUG`), the cached anonymous
user id, the CI detection result and the wall clock are carried as state
fields; scheduling facts of the background worker (whether the bounded join
observes its exit, how many drain-loop iterations the wall-clock budget
allows) are explicit parameters of `on_shutdown`. -/

/-- `ANALYTICS_QUEUE_MAXSIZE`. -/
def ANALYTICS_QUEUE_MAXSIZE : Nat := 100

/-- A track event, as built by `_build_track_event`. -/
structure TrackEvent where
  typ : PyStr
  user_id : PyStr
  event : PyStr
  properties : Details
  debug : Bool
  deriving DecidableEq, Repr

/-- The module state of `zenml_mcp_analytics.py`.  The event queue holds
batches (`some events`) and the `None` stop sentinel.  `sent_sync` logs the
batches handed to `_send_events_sync` (the synchronous POST path). -/
structure AnalyticsState where
  session_id : Option PyStr
  session_start_time : Option Int
  tool_call_count : Nat
  tools_used : List PyStr
  session_properties : PyDict DetailVal
  event_queue : List (Option (List TrackEvent))
  sender_alive : Bool
  sender_stop : Bool
  shutdown_once : Bool
  http_client_closed : Bool
  sent_sync : List (List TrackEvent)
  user_id : PyStr
  analytics_enabled : Bool
  dev_mode : Bool
  analytics_debug : Bool
  is_ci : Bool
  now : Int
  deriving DecidableEq, Repr

/-- `Queue.put_nowait`: raises `Full` (modelled as `.error ()`) when the
bounded queue already holds `ANALYTICS_QUEUE_MAXSIZE` items. -/
def put_nowait (b : Option (List TrackEvent)) (st : AnalyticsState) :
    Except Unit AnalyticsState :=
  if ANALYTICS_QUEUE_MAXSIZE ≤ st.event_queue.length then .error ()
  else .ok { st with event_queue := st.event_queue ++ [b] }

/-- `_ensure_sender_thread_started` (idempotent lazy start of the worker). -/
def ensure_sender_thread_started (st : AnalyticsState) : AnalyticsState :=
  if st.sender_alive then st
  else { st with sender_alive := true, sender_stop := false }

/-- `_send_events`: enqueue a batch for async delivery; a `Full` queue (or any
other exception) is swallowed and the batch is silently dropped. -/
def send_events (events : List TrackEvent) (st : AnalyticsState) : AnalyticsState :=
  if events = [] then st
  else
    let st1 := ensure_sender_thread_started st
    match put_nowait (some events) st1 with
    | .ok st2 => st2
    | .error _ => st1

/-- `_send_events_sync`: best-effort synchronous POST, modelled as appending
the batch to the `sent_sync` log. -/
def send_events_sync (events : List TrackEvent) (st : AnalyticsState) : AnalyticsState :=
  if events = [] then st else { st with sent_sync := st.sent_sync ++ [events] }

/-- `_close_http_client`. -/
def close_http_client (st : AnalyticsState) : AnalyticsState :=
  { st with http_client_closed := true }

/-- `_stop_sender_thread` with a non-`None` join timeout: set the stop event,
best-effort enqueue the stop sentinel, join the worker with a bounded timeout.
`joinSucceeds` says whether the join observes the worker exit within the
timeout.  Returns whether the thread is confirmed stopped. -/
def stop_sender_thread (joinSucceeds : Bool) (st : AnalyticsState) :
    Bool × AnalyticsState :=
  let st := { st with sender_stop := true }
  let st := match put_nowait none st with
    | .ok s => s
    | .error _ => st
  if st.sender_alive then
    if joinSucceeds then (true, { st with sender_alive := false }) else (false, st)
  else (true, st)

/-- `_build_track_event` (the anonymous user id is the cached
`get_or_create_user_id()` result carried in the state). -/
def build_track_event (st : AnalyticsState) (event_name : PyStr)
    (properties : Details) : TrackEvent :=
  { typ := pys "track", user_id := st.user_id, event := event_name,
    properties := properties, debug := st.analytics_debug }

/-- The drain loop of `_on_shutdown`: pop batches until the queue is empty
(`Empty` is caught), a `None` sentinel is met, or the wall-clock budget allows
no further iteration (`fuel = 0`). -/
def drainQueue : Nat → List (Option (List TrackEvent)) →
    List TrackEvent × List (Option (List TrackEvent))
  | 0, q => ([], q)
  | _ + 1, [] => ([], [])
  | _ + 1, none :: q => ([], q)
  | fuel + 1, some b :: q =>
      let p := drainQueue fuel q
      (b ++ p.1, p.2)

/-- `set_session_properties`: `dict.update` on the shared mapping. -/
def set_session_properties (properties : PyDict DetailVal)
    (sp : PyDict DetailVal) : PyDict DetailVal :=
  dictUpdate sp properties

/-- `set_client_info_once`: strip the provided values, treat blank as absent,
and `setdefault` each non-blank value. -/
def set_client_info_once (client_name client_version : Option PyStr)
    (sp : PyDict DetailVal) : PyDict DetailVal :=
  let name : Option PyStr := match client_name with
    | none => none
    | some s => if s = [] then none else some (pyStrip s)
  let version : Option PyStr := match client_version with
    | none => none
    | some s => if s = [] then none else some (pyStrip s)
  let nameT : Bool := match name with
    | some n => !n.isEmpty
    | none => false
  let versionT : Bool := match version with
    | some v => !v.isEmpty
    | none => false
  if !nameT && !versionT then sp
  else
    let sp := match name with
      | some n => if n.isEmpty then sp else dictSetdefault (pys "mcp_client_name") (.vs n) sp
      | none => sp
    match version with
    | some v => if v.isEmpty then sp else dictSetdefault (pys "mcp_client_version") (.vs v) sp
    | none => sp

/-- `_on_shutdown`.  The body runs inside `try ... finally: if sender_stopped:
_close_http_client()`, but the local `sender_stopped` is first assigned only
after the DEV-mode check; on every earlier `return` path the `finally` block
reads an unassigned local and raises `UnboundLocalError`. -/
def on_shutdown (shutdown_reason : PyStr) (shutdown_signal : Option PyStr)
    (joinSucceeds : Bool) (drainBudget : Nat) (st : AnalyticsState) :
    Except PyErr Unit × AnalyticsState :=
  if st.shutdown_once then (.error .unboundLocalError, st)
  else
    let st := { st with shutdown_once := true }
    if !st.analytics_enabled then (.error .unboundLocalError, st)
    else
      match st.session_start_time with
      | none => (.error .unboundLocalError, st)
      | some start =>
          let props : Details :=
            [(pys "uptime_seconds", .vi (st.now - start)),
             (pys "total_tool_calls", .vi st.tool_call_count),
             (pys "unique_tools_used", .vi st.tools_used.length),
             (pys "session_id",
              match st.session_id with
              | some s => .vs s
              | none => .vnone),
             (pys "is_ci", .vb st.is_ci),
             (pys "shutdown_reason", .vs shutdown_reason)]
          let props := match shutdown_signal with
            | some sg => dictSet (pys "shutdown_signal") (.vs sg) props
            | none => props
          if st.dev_mode then (.error .unboundLocalError, st)
          else
            let p := stop_sender_thread joinSucceeds st
            let sender_stopped := p.1
            let st := p.2
            let shutdown_event := build_track_event st (pys "MCP Server Shutdown") props
            let d := drainQueue drainBudget st.event_queue
            let st := { st with event_queue := d.2 }
            let st := send_events_sync (d.1 ++ [shutdown_event]) st
            let st := if sender_stopped then close_http_client st else st
            (.ok (), st)

/-! ## Size-argument extraction (`_coerce_to_int`, `extract_size_from_call`) -/

/-- A Python float, reduced to the observations `int(value)` makes of it:
`int()` of a finite float is its truncation toward zero, `int(nan)` raises
`ValueError`, `int(±inf)` raises `OverflowError`. -/
inductive PyFloat
  | nan
  | inf
  | neginf
  | finite (trunc : Int)
  deriving DecidableEq, Repr

/-- A Python value as observed by `_coerce_to_int`: `None`, an `int` (which
includes `bool`, a subclass of `int`), a `str`, a `float`, or any other
type. -/
inductive PyVal
  | vnone
  | vint (n : Int)
  | vstr (s : PyStr)
  | vfloat (f : PyFloat)
  | vother
  deriving DecidableEq, Repr

/-- Digits of a base-10 `int()` literal with single underscores allowed
between digits, after the first digit. -/
def digitsUndGo (acc : Nat) : PyStr → Option Nat
  | [] => some acc
  | '_' :: c :: r =>
      if c.isDigit then digitsUndGo (10 * acc + (c.toNat - 48)) r else none
  | c :: r =>
      if c.isDigit then digitsUndGo (10 * acc + (c.toNat - 48)) r else none

/-- One or more digits with single underscores between digits. -/
def digitsUnd : PyStr → Option Nat
  | [] => none
  | c :: r => if c.isDigit then digitsUndGo (c.toNat - 48) r else none

/-- Python `int(s)` for a `str` argument (ASCII digits): strip whitespace,
optional sign, digits with underscores between them; anything else raises
`ValueError`, modelled as `none`. -/
def pyIntOfStr (s : PyStr) : Option Int :=
  match pyStrip s with
  | '+' :: r => (digitsUnd r).map Int.ofNat
  | '-' :: r => (digitsUnd r).map (fun n => -(n : Int))
  | r => (digitsUnd r).map Int.ofNat

/-- `_coerce_to_int`: coerce `int`, numeric `str` and `float` values to `int`,
return `None` outside `1..10000` (no clamping to the boundary) and for
unparseable values.  `ValueError`/`TypeError` are caught; the `OverflowError`
raised by `int()` on an infinite float is not. -/
def coerce_to_int (value : PyVal) : Except PyErr (Option Int) :=
  let inRange : Int → Option Int := fun result =>
    if result < 1 ∨ 10000 < result then none else some result
  match value with
  | .vnone => .ok none
  | .vint n => .ok (inRange n)
  | .vstr s =>
      match pyIntOfStr s with
      | some n => .ok (inRange n)
      | none => .ok none
  | .vfloat (.finite t) => .ok (inRange t)
  | .vfloat .nan => .ok none
  | .vfloat .inf => .error .overflowError
  | .vfloat .neginf => .error .overflowError
  | .vother => .ok none

/-- `extract_size_from_call`: look up the `size` keyword argument only and
coerce it. -/
def extract_size_from_call (func_name : PyStr) (args : List PyVal)
    (kwargs : PyDict PyVal) : Except PyErr (Option Int) :=
  coerce_to_int ((dictGet (pys "size") kwargs).getD .vnone)

/-! ## Derived shape predicates used by the verification -/

/-- A nonempty all-digit string. -/
def DigitStr (l : PyStr) : Prop := l ≠ [] ∧ ∀ c ∈ l, c.isDigit

/-- The shape of every string in ZenML target datetime format: six nonempty
digit fields joined by the separators `-`, `-`, ` `, `:`, `:`. -/
def ZFmtP (t : PyStr) : Prop :=
  ∃ a b c d e f : PyStr, DigitStr a ∧ DigitStr b ∧ DigitStr c ∧ DigitStr d ∧
    DigitStr e ∧ DigitStr f ∧
    t = a ++ '-' :: (b ++ '-' :: (c ++ ' ' :: (d ++ ':' :: (e ++ ':' :: f))))

/-- The syntactic facts about recognized operator tokens that the idempotence
argument uses. -/
def opGood (o : PyStr) : Bool :=
  decide (':' ∉ o) && decide ('-' ∉ o) && decide (o ≠ []) &&
    (match o.head? with
     | none => false
     | some c => !pyIsSpace c && decide (c ≠ 'r'))

/-- The inputs excluded by the amended idempotence statement: `range:` filters
whose lazy lower part contains a comma. -/
def rangeLowerComma (x : PyStr) : Bool :=
  match rangeRe (pyStrip x) with
  | some lu => decide (',' ∈ lu.1)
  | none => false


/-! ## Sanity checks: the normalizer on the repository test vectors -/

example : normalize_datetime_filter (pys "gte:2026-02-01") =
    .ok (pys "gte:2026-02-01 00:00:00") := by decide

example : normalize_datetime_filter (pys "lte:2026-02-01") =
    .ok (pys "lte:2026-02-01 23:59:59") := by decide

example : normalize_datetime_filter (pys "2026-02-01T12:00:00+02:00") =
    .ok (pys "2026-02-01 10:00:00") := by decide

example : normalize_datetime_filter (pys "2026-02-01T05:00:00-05:00") =
    .ok (pys "2026-02-01 10:00:00") := by decide

example : normalize_datetime_filter (pys "2026-02-01T10:00:00.123Z") =
    .ok (pys "2026-02-01 10:00:00") := by decide

example : normalize_datetime_filter (pys "2026-02-01T10:00") =
    .ok (pys "2026-02-01 10:00:00") := by decide

example : normalize_datetime_filter (pys "range:2026-02-01..2026-02-07") =
    .ok (pys "in:2026-02-01 00:00:00,2026-02-07 23:59:59") := by decide

example : normalize_datetime_filter (pys "range:2026-02-01T00:00:00Z..2026-02-07T23:59:59Z") =
    .ok (pys "in:2026-02-01 00:00:00,2026-02-07 23:59:59") := by decide

example : normalize_datetime_filter (pys "in:2026-02-01,2026-02-07") =
    .ok (pys "in:2026-02-01 00:00:00,2026-02-07 23:59:59") := by decide

example : normalize_datetime_filter (pys "2026-02-01 10:00:00.123") =
    .ok (pys "2026-02-01 10:00:00") := by decide

example : normalize_datetime_filter (pys "oneof:completed,failed") =
    .ok (pys "oneof:completed,failed") := by decide

example : normalize_datetime_filter (pys "contains:foo") =
    .ok (pys "contains:foo") := by decide

example : normalize_datetime_filter (pys "") = .ok (pys "") := by decide

example : normalize_datetime_filter (pys "  2026-02-01  ") =
    .ok (pys "2026-02-01 00:00:00") := by decide

example : normalize_datetime_filter (pys "gte:2026-02-01 00:00:00") =
    .ok (pys "gte:2026-02-01 00:00:00") := by decide

/-! ## Lemmas: `pyStrip` -/

theorem dropWhile_eq_self_of_head {p : Char → Bool} {l : PyStr}
    (h : ∀ c ∈ l.head?, ¬ p c) : l.dropWhile p = l := by
  cases l with
  | nil => rfl
  | cons a t =>
      have := h a (by simp)
      simp [List.dropWhile_cons, this]

theorem head_not_of_dropWhile_eq_self {p : Char → Bool} {l : PyStr}
    (h : l.dropWhile p = l) : ∀ c ∈ l.head?, ¬ p c := by
  cases l with
  | nil => simp
  | cons a t =>
      intro c hc hp
      simp only [List.head?_cons, Option.mem_def, Option.some.injEq] at hc
      subst hc
      rw [List.dropWhile_cons, if_pos hp] at h
      have hlen : (t.dropWhile p).length ≤ t.length := (List.dropWhile_suffix _).length_le
      rw [h] at hlen
      simp at hlen

theorem head_dropWhile_not {p : Char → Bool} :
    ∀ l : PyStr, ∀ c ∈ (l.dropWhile p).head?, ¬ p c := by
  intro l
  induction l with
  | nil => simp
  | cons a t ih =>
      by_cases h : p a
      · simpa [List.dropWhile_cons, h] using ih
      · intro c hc
        simp only [List.dropWhile_cons, if_neg h, List.head?_cons, Option.mem_def,
          Option.some.injEq] at hc
        subst hc
        exact fun hp => h hp

theorem mem_of_mem_pyStrip {c : Char} {l : PyStr} (h : c ∈ pyStrip l) : c ∈ l := by
  unfold pyStrip at h
  rw [List.mem_reverse] at h
  have h2 : c ∈ (l.dropWhile pyIsSpace).reverse := (List.dropWhile_suffix _).subset h
  rw [List.mem_reverse] at h2
  exact (List.dropWhile_suffix _).subset h2

theorem pyStrip_eq_self {l : PyStr} (h1 : ∀ c ∈ l.head?, ¬ pyIsSpace c)
    (h2 : ∀ c ∈ l.getLast?, ¬ pyIsSpace c) : pyStrip l = l := by
  unfold pyStrip
  rw [dropWhile_eq_self_of_head h1]
  rw [dropWhile_eq_self_of_head (by simpa [List.head?_reverse] using h2)]
  exact List.reverse_reverse l

theorem pyStrip_parts {l : PyStr} (h : pyStrip l = l) :
    l.dropWhile pyIsSpace = l ∧ l.reverse.dropWhile pyIsSpace = l.reverse := by
  unfold pyStrip at h
  have h1 : (l.dropWhile pyIsSpace).length ≤ l.length := (List.dropWhile_suffix _).length_le
  have h2 : ((l.dropWhile pyIsSpace).reverse.dropWhile pyIsSpace).length ≤
      (l.dropWhile pyIsSpace).length := by
    simpa using (List.dropWhile_suffix (l := (l.dropWhile pyIsSpace).reverse) pyIsSpace).length_le
  have h3 := congrArg List.length h
  simp only [List.length_reverse] at h3
  have e1 : l.dropWhile pyIsSpace = l :=
    (List.dropWhile_suffix _).eq_of_length (by omega)
  refine ⟨e1, ?_⟩
  rw [e1] at h
  have := congrArg List.reverse h
  simpa using this

theorem pyStrip_head {l : PyStr} (h : pyStrip l = l) :
    ∀ c ∈ l.head?, ¬ pyIsSpace c :=
  head_not_of_dropWhile_eq_self (pyStrip_parts h).1

theorem pyStrip_getLast {l : PyStr} (h : pyStrip l = l) :
    ∀ c ∈ l.getLast?, ¬ pyIsSpace c := by
  intro c hc
  exact head_not_of_dropWhile_eq_self (pyStrip_parts h).2 c
    (by rw [List.head?_reverse]; exact hc)

/-! ## Lemmas: substring containment -/

theorem startsWithStr_iff {p l : PyStr} : startsWithStr p l = true ↔ p <+: l := by
  induction p generalizing l with
  | nil => simp [startsWithStr, List.nil_prefix]
  | cons a ps ih =>
      cases l with
      | nil => simp [startsWithStr]
      | cons c cs => simp [startsWithStr, ih, List.cons_prefix_cons]

theorem containsSub_iff {p l : PyStr} : containsSub p l = true ↔ p <:+: l := by
  induction l with
  | nil =>
      simp only [containsSub, List.isEmpty_iff]
      constructor
      · intro h; simp [h]
      · intro h; simpa using h
  | cons c cs ih =>
      simp [containsSub, startsWithStr_iff, ih, List.infix_cons_iff]

theorem containsSub_append_right {p a b : PyStr} (h : containsSub p b = true) :
    containsSub p (a ++ b) = true := by
  rw [containsSub_iff] at h ⊢
  exact h.trans (List.suffix_append a b).isInfix

theorem prefix_split_of_not_mem {s X Y : PyStr} {c : Char} (hc : c ∉ s)
    (h : s <+: X ++ c :: Y) : s <+: X := by
  induction X generalizing s with
  | nil =>
      cases s with
      | nil => exact List.nil_prefix
      | cons a t =>
          rw [List.nil_append, List.cons_prefix_cons] at h
          exact absurd (h.1 ▸ List.mem_cons_self a t) hc
  | cons x X' ih =>
      cases s with
      | nil => exact List.nil_prefix
      | cons a t =>
          rw [List.cons_append, List.cons_prefix_cons] at h
          obtain ⟨rfl, h2⟩ := h
          exact List.cons_prefix_cons.mpr
            ⟨rfl, ih (fun hm => hc (List.mem_cons_of_mem _ hm)) h2⟩

theorem infix_split_of_not_mem {s X Y : PyStr} {c : Char} (hc : c ∉ s)
    (h : s <:+: X ++ c :: Y) : s <:+: X ∨ s <:+: Y := by
  induction X with
  | nil =>
      rw [List.nil_append, List.infix_cons_iff] at h
      rcases h with h | h
      · cases s with
        | nil => exact Or.inl List.nil_infix
        | cons a t =>
            rw [List.cons_prefix_cons] at h
            exact absurd (h.1 ▸ List.mem_cons_self a t) hc
      · exact Or.inr h
  | cons x X' ih =>
      rw [List.cons_append, List.infix_cons_iff] at h
      rcases h with h | h
      · cases s with
        | nil => exact Or.inl List.nil_infix
        | cons a t =>
            rw [List.cons_prefix_cons] at h
            obtain ⟨rfl, h2⟩ := h
            have h3 := prefix_split_of_not_mem (fun hm => hc (by simp [hm])) h2
            exact Or.inl (List.cons_prefix_cons.mpr ⟨rfl, h3⟩).isInfix
      · rcases ih h with h' | h'
        · exact Or.inl (h'.trans (List.suffix_cons x X').isInfix)
        · exact Or.inr h'

theorem pyStrip_idem (l : PyStr) : pyStrip (pyStrip l) = pyStrip l := by
  apply pyStrip_eq_self
  · intro c hc
    unfold pyStrip at hc
    rw [List.head?_reverse] at hc
    rcases hD : (l.dropWhile pyIsSpace).reverse.dropWhile pyIsSpace with _ | ⟨a, t⟩
    · rw [hD] at hc; simp at hc
    · obtain ⟨pre, hpre⟩ := List.dropWhile_suffix
        (l := (l.dropWhile pyIsSpace).reverse) pyIsSpace
      rw [hD] at hc
      have hne : (l.dropWhile pyIsSpace).reverse.dropWhile pyIsSpace ≠ [] := by
        rw [hD]; simp
      have hlast : (l.dropWhile pyIsSpace).reverse.getLast? = some c := by
        rw [← hpre, List.getLast?_append_of_ne_nil pre hne, hD]
        exact hc
      rw [List.getLast?_reverse] at hlast
      exact head_dropWhile_not l c hlast
  · intro c hc
    unfold pyStrip at hc
    rw [List.getLast?_reverse] at hc
    exact head_dropWhile_not _ c hc

/-! ## Lemmas: partition and split -/

theorem partitionColon_append {x y : PyStr} (hx : ':' ∉ x) :
    partitionColon (x ++ ':' :: y) = some (x, y) := by
  induction x with
  | nil => simp [partitionColon]
  | cons c cs ih =>
      have hc : ¬ (c = ':') := fun e => hx (by simp [e])
      simp only [List.cons_append, partitionColon, if_neg hc, List.append_eq]
      rw [ih (fun hm => hx (List.mem_cons_of_mem _ hm))]

theorem partitionColon_none {l : PyStr} (h : ':' ∉ l) : partitionColon l = none := by
  induction l with
  | nil => rfl
  | cons c cs ih =>
      have hc : ¬ (c = ':') := fun e => h (by simp [e])
      simp only [partitionColon, if_neg hc]
      rw [ih (fun hm => h (List.mem_cons_of_mem _ hm))]

theorem splitComma1_append {x y : PyStr} (hx : ',' ∉ x) :
    splitComma1 (x ++ ',' :: y) = (x, y) := by
  induction x with
  | nil => simp [splitComma1]
  | cons c cs ih =>
      have hc : ¬ (c = ',') := fun e => hx (by simp [e])
      simp only [List.cons_append, splitComma1, if_neg hc, List.append_eq]
      rw [ih (fun hm => hx (List.mem_cons_of_mem _ hm))]

theorem splitComma1_fst_no_comma : ∀ l : PyStr, ',' ∉ (splitComma1 l).1 := by
  intro l
  induction l with
  | nil => simp [splitComma1]
  | cons c cs ih =>
      by_cases h : c = ','
      · simp [splitComma1, h]
      · simp only [splitComma1, if_neg h, List.mem_cons]
        rintro (e | hm)
        · exact h e.symm
        · exact ih hm

/-! ## Lemmas: digit parsers -/

theorem takeDigits_sound : ∀ {n : Nat} {l a r : PyStr}, takeDigits n l = some (a, r) →
    l = a ++ r ∧ a.length = n ∧ ∀ c ∈ a, c.isDigit := by
  intro n
  induction n with
  | zero =>
      intro l a r h
      simp only [takeDigits, Option.some.injEq, Prod.mk.injEq] at h
      obtain ⟨rfl, rfl⟩ := h
      simp
  | succ n ih =>
      intro l a r h
      cases l with
      | nil => simp [takeDigits] at h
      | cons c cs =>
          simp only [takeDigits] at h
          by_cases hd : c.isDigit
          · rw [if_pos hd] at h
            cases ht : takeDigits n cs with
            | none => rw [ht] at h; simp at h
            | some p =>
                obtain ⟨a', r'⟩ := p
                rw [ht] at h
                simp only [Option.some.injEq, Prod.mk.injEq] at h
                obtain ⟨rfl, rfl⟩ := h
                obtain ⟨h1, h2, h3⟩ := ih ht
                refine ⟨by simp [h1], by simp [h2], ?_⟩
                intro x hx
                rcases List.mem_cons.mp hx with rfl | hx
                · exact hd
                · exact h3 x hx
          · rw [if_neg hd] at h; simp at h

theorem takeDigits1_sound {l a r : PyStr} (h : takeDigits1 l = some (a, r)) :
    l = a ++ r ∧ a ≠ [] ∧ ∀ c ∈ a, c.isDigit := by
  unfold takeDigits1 at h
  rw [List.span_eq_take_drop] at h
  simp only [List.isEmpty_iff] at h
  by_cases he : l.takeWhile Char.isDigit = []
  · rw [if_pos he] at h
    exact absurd h (by simp)
  · rw [if_neg he] at h
    simp only [Option.some.injEq, Prod.mk.injEq] at h
    obtain ⟨ha, hr⟩ := h
    subst ha
    subst hr
    exact ⟨(List.takeWhile_append_dropWhile ..).symm, he,
      fun c hc => List.mem_takeWhile_imp hc⟩

/-! ## Lemmas: character classes and the `YYYY-MM-DD HH:MM:SS` shape -/

theorem digit_ne {c x : Char} (h : c.isDigit = true) (hx : x.isDigit = false) : c ≠ x := by
  intro e
  subst e
  rw [h] at hx
  exact Bool.noConfusion hx

theorem digit_not_space {c : Char} (h : c.isDigit = true) : pyIsSpace c = false := by
  by_contra hs
  rw [Bool.not_eq_false] at hs
  simp only [pyIsSpace, Bool.or_eq_true, decide_eq_true_eq] at hs
  rcases hs with ((((e | e) | e) | e) | e) | e <;> (subst e; exact absurd h (by decide))

theorem zfmt_chars {t : PyStr} (h : ZFmtP t) :
    ∀ ch ∈ t, ch.isDigit = true ∨ ch = '-' ∨ ch = ' ' ∨ ch = ':' := by
  obtain ⟨a, b, c, d, e, f, ha, hb, hc, hd, he, hf, rfl⟩ := h
  intro ch hch
  simp only [List.mem_append, List.mem_cons] at hch
  rcases hch with ha' | rfl | hb' | rfl | hc' | rfl | hd' | rfl | he' | rfl | hf'
  · exact Or.inl (ha.2 ch ha')
  · exact Or.inr (Or.inl rfl)
  · exact Or.inl (hb.2 ch hb')
  · exact Or.inr (Or.inl rfl)
  · exact Or.inl (hc.2 ch hc')
  · exact Or.inr (Or.inr (Or.inl rfl))
  · exact Or.inl (hd.2 ch hd')
  · exact Or.inr (Or.inr (Or.inr rfl))
  · exact Or.inl (he.2 ch he')
  · exact Or.inr (Or.inr (Or.inr rfl))
  · exact Or.inl (hf.2 ch hf')

theorem zfmt_not_mem {t : PyStr} (h : ZFmtP t) {x : Char} (hd : x.isDigit = false)
    (h1 : x ≠ '-') (h2 : x ≠ ' ') (h3 : x ≠ ':') : x ∉ t := by
  intro hx
  rcases zfmt_chars h x hx with hx' | rfl | rfl | rfl
  · rw [hx'] at hd; exact Bool.noConfusion hd
  · exact h1 rfl
  · exact h2 rfl
  · exact h3 rfl

theorem zfmt_ne_nil {t : PyStr} (h : ZFmtP t) : t ≠ [] := by
  obtain ⟨a, b, c, d, e, f, ha, _, _, _, _, _, rfl⟩ := h
  simp

theorem zfmt_space_mem {t : PyStr} (h : ZFmtP t) : ' ' ∈ t := by
  obtain ⟨a, b, c, d, e, f, _, _, _, _, _, _, rfl⟩ := h
  simp

theorem zfmt_head {t : PyStr} (h : ZFmtP t) : ∀ ch ∈ t.head?, ch.isDigit = true := by
  obtain ⟨a, b, c, d, e, f, ha, _, _, _, _, _, rfl⟩ := h
  obtain ⟨a0, arest, rfl⟩ := List.exists_cons_of_ne_nil ha.1
  intro ch hch
  have e1 : a0 = ch := by simpa using hch
  obtain rfl := e1
  exact ha.2 a0 (by simp)

theorem getLast?_append_cons {x : PyStr} {c : Char} {y : PyStr} :
    (x ++ c :: y).getLast? = (c :: y).getLast? :=
  List.getLast?_append_of_ne_nil x (by simp)

theorem getLast?_cons_ne {c : Char} {y : PyStr} (h : y ≠ []) :
    (c :: y).getLast? = y.getLast? :=
  List.getLast?_append_of_ne_nil [c] h

theorem zfmt_getLast {t : PyStr} (h : ZFmtP t) : ∀ ch ∈ t.getLast?, ch.isDigit = true := by
  obtain ⟨a, b, c, d, e, f, _, _, _, _, _, hf, rfl⟩ := h
  intro ch hch
  rw [getLast?_append_cons, getLast?_cons_ne (by simp), getLast?_append_cons,
      getLast?_cons_ne (by simp), getLast?_append_cons, getLast?_cons_ne (by simp),
      getLast?_append_cons, getLast?_cons_ne (by simp), getLast?_append_cons,
      getLast?_cons_ne hf.1] at hch
  exact hf.2 ch (List.mem_of_getLast?_eq_some hch)

theorem zfmt_strip {t : PyStr} (h : ZFmtP t) : pyStrip t = t := by
  apply pyStrip_eq_self
  · intro c hc
    simp [digit_not_space (zfmt_head h c hc)]
  · intro c hc
    simp [digit_not_space (zfmt_getLast h c hc)]

/-! ## Lemmas: decimal formatting produces digit strings -/

theorem digitChar_isDigit (n : Nat) : (digitChar n).isDigit = true := by
  unfold digitChar
  repeat' split
  all_goals decide

theorem natDigitsAux_digits : ∀ fuel n : Nat, ∀ c ∈ natDigitsAux fuel n, c.isDigit = true := by
  intro fuel
  induction fuel with
  | zero => intro n c hc; simp [natDigitsAux] at hc
  | succ fu ih =>
      intro n c hc
      by_cases h0 : n = 0
      · simp [natDigitsAux, h0] at hc
      · simp only [natDigitsAux, if_neg h0, List.mem_append, List.mem_singleton] at hc
        rcases hc with hc | rfl
        · exact ih _ c hc
        · exact digitChar_isDigit _

theorem natDigits_digitStr (n : Nat) : DigitStr (natDigits n) := by
  unfold natDigits
  by_cases h0 : n = 0
  · rw [if_pos h0]
    refine ⟨by simp, ?_⟩
    intro c hc
    simp only [List.mem_singleton] at hc
    subst hc
    decide
  · rw [if_neg h0]
    refine ⟨?_, fun c hc => natDigitsAux_digits _ _ c hc⟩
    rw [natDigitsAux, if_neg h0]
    simp

theorem zfill_digitStr {w : Nat} {l : PyStr} (h : DigitStr l) : DigitStr (zfill w l) := by
  unfold zfill
  refine ⟨by simp [h.1], ?_⟩
  intro c hc
  rcases List.mem_append.mp hc with hc | hc
  · rw [List.eq_of_mem_replicate hc]; decide
  · exact h.2 c hc

theorem fmt2_digitStr (n : Nat) : DigitStr (fmt2 n) := zfill_digitStr (natDigits_digitStr n)

theorem fmt4_digitStr (n : Nat) : DigitStr (fmt4 n) := zfill_digitStr (natDigits_digitStr n)

theorem strftime_zfmt (y mo d hh mi ss : Nat) : ZFmtP (strftimeZenml y mo d hh mi ss) :=
  ⟨fmt4 y, fmt2 mo, fmt2 d, fmt2 hh, fmt2 mi, fmt2 ss, fmt4_digitStr y, fmt2_digitStr mo,
   fmt2_digitStr d, fmt2_digitStr hh, fmt2_digitStr mi, fmt2_digitStr ss, by
     simp [strftimeZenml, List.append_assoc]⟩

/-! ## Lemmas: inversion of the shape parsers -/

theorem iso_T_mem {l : PyStr} {p : IsoParts} (h : parseIsoShape l = some p) : 'T' ∈ l := by
  unfold parseIsoShape at h
  split at h <;> try exact Option.noConfusion h
  rename_i y4 r1 heq1
  split at h <;> try exact Option.noConfusion h
  rename_i mo2 r2 heq2
  split at h <;> try exact Option.noConfusion h
  rename_i d2 r3 heq3
  have e1 := (takeDigits_sound heq1).1
  have e2 := (takeDigits_sound heq2).1
  have e3 := (takeDigits_sound heq3).1
  subst e1
  subst e2
  subst e3
  simp

theorem spaceFrac_sound {l g : PyStr} (h : spaceFracShape l = some g) :
    ZFmtP g ∧ '.' ∈ l := by
  unfold spaceFracShape at h
  split at h <;> try exact Option.noConfusion h
  rename_i y4 r1 heq1
  split at h <;> try exact Option.noConfusion h
  rename_i mo2 r2 heq2
  split at h <;> try exact Option.noConfusion h
  rename_i d2 r3 heq3
  split at h <;> try exact Option.noConfusion h
  rename_i h2 r4 heq4
  split at h <;> try exact Option.noConfusion h
  rename_i mi2 r5 heq5
  split at h <;> try exact Option.noConfusion h
  rename_i s2 r6 heq6
  split at h <;> try exact Option.noConfusion h
  rename_i fr r7 heq7
  obtain ⟨hy, hyl, hyd⟩ := takeDigits_sound heq1
  obtain ⟨hm, hml, hmd⟩ := takeDigits_sound heq2
  obtain ⟨hdd, hdl, hddd⟩ := takeDigits_sound heq3
  obtain ⟨hh, hhl, hhd⟩ := takeDigits_sound heq4
  obtain ⟨hmi, hmil, hmid⟩ := takeDigits_sound heq5
  obtain ⟨hs, hsl, hsd⟩ := takeDigits_sound heq6
  have hne : ∀ {x : PyStr} {n : Nat}, x.length = n + 1 → x ≠ [] := by
    intro x n hx he
    subst he
    simp at hx
  simp only [Option.some.injEq] at h
  constructor
  · refine ⟨y4, mo2, d2, h2, mi2, s2, ⟨hne hyl, hyd⟩, ⟨hne hml, hmd⟩, ⟨hne hdl, hddd⟩,
      ⟨hne hhl, hhd⟩, ⟨hne hmil, hmid⟩, ⟨hne hsl, hsd⟩, ?_⟩
    rw [← h]
    simp [List.append_assoc]
  · subst hy
    subst hm
    subst hdd
    subst hh
    subst hmi
    subst hs
    simp

theorem dateOnly_sound {l : PyStr} {y mo d : PyStr} (h : dateOnlyShape l = some (y, mo, d)) :
    l = y ++ '-' :: (mo ++ '-' :: d) ∧ DigitStr y ∧ DigitStr mo ∧ DigitStr d := by
  unfold dateOnlyShape at h
  split at h <;> try exact Option.noConfusion h
  rename_i y4 r1 heq1
  split at h <;> try exact Option.noConfusion h
  rename_i mo2 r2 heq2
  split at h <;> try exact Option.noConfusion h
  rename_i d2 heq3
  obtain ⟨hy, hyl, hyd⟩ := takeDigits_sound heq1
  obtain ⟨hm, hml, hmd⟩ := takeDigits_sound heq2
  obtain ⟨hdd, hdl, hddd⟩ := takeDigits_sound heq3
  simp only [Option.some.injEq, Prod.mk.injEq] at h
  obtain ⟨rfl, rfl, rfl⟩ := h
  have hne : ∀ {x : PyStr} {n : Nat}, x.length = n + 1 → x ≠ [] := by
    intro x n hx he
    subst he
    simp at hx
  subst hy
  subst hm
  rw [hdd]
  refine ⟨by simp, ⟨hne hyl, hyd⟩, ⟨hne hml, hmd⟩, ⟨hne hdl, hddd⟩⟩

theorem dateOnly_chars {l : PyStr} (h : dateOnlyRe l = true) :
    l ≠ [] ∧ ∀ c ∈ l, c.isDigit = true ∨ c = '-' := by
  unfold dateOnlyRe at h
  rw [Option.isSome_iff_exists] at h
  obtain ⟨⟨y, mo, d⟩, hp⟩ := h
  obtain ⟨rfl, hy, hm, hd⟩ := dateOnly_sound hp
  refine ⟨by simp [hy.1], ?_⟩
  intro c hc
  simp only [List.mem_append, List.mem_cons] at hc
  rcases hc with hc | rfl | hc | rfl | hc
  · exact Or.inl (hy.2 c hc)
  · exact Or.inr rfl
  · exact Or.inl (hm.2 c hc)
  · exact Or.inr rfl
  · exact Or.inl (hd.2 c hc)

theorem rangeRe_prefix {l : PyStr} {q : PyStr × PyStr}
    (h : rangeRe l = some q) : ∃ rest, l = 'r' :: 'a' :: 'n' :: 'g' :: 'e' :: ':' :: rest := by
  unfold rangeRe at h
  split at h
  · rename_i rest
    exact ⟨rest, rfl⟩
  · exact Option.noConfusion h

/-! ## Lemmas: a `ZFmtP` string is inert for the normalizer -/

theorem zfmt_iso_false {t : PyStr} (h : ZFmtP t) : isoRe t = false := by
  unfold isoRe
  cases hp : parseIsoShape t with
  | none => rfl
  | some p =>
      exact absurd (iso_T_mem hp)
        (zfmt_not_mem h (by decide) (by decide) (by decide) (by decide))

theorem zfmt_frac_none {t : PyStr} (h : ZFmtP t) : spaceFracShape t = none := by
  cases hp : spaceFracShape t with
  | none => rfl
  | some g =>
      exact absurd (spaceFrac_sound hp).2
        (zfmt_not_mem h (by decide) (by decide) (by decide) (by decide))

theorem zfmt_dateOnly_false {t : PyStr} (h : ZFmtP t) : dateOnlyRe t = false := by
  cases hp : dateOnlyRe t
  · rfl
  · obtain ⟨_, hch⟩ := dateOnly_chars hp
    rcases hch ' ' (zfmt_space_mem h) with hd | he
    · exact absurd hd (by decide)
    · exact absurd he (by decide)

theorem zfmt_range_none {t : PyStr} (h : ZFmtP t) : rangeRe t = none := by
  cases hp : rangeRe t with
  | none => rfl
  | some q =>
      obtain ⟨rest, hr⟩ := rangeRe_prefix hp
      rw [hr] at h
      exact absurd (zfmt_head h 'r' (by simp)) (by decide)

theorem zfmt_normTok {t : PyStr} (h : ZFmtP t) (ub : Bool) :
    norm_datetime_token ub t = .ok t := by
  simp [norm_datetime_token, zfmt_strip h, zfmt_iso_false h, zfmt_frac_none h,
    zfmt_dateOnly_false h]

theorem zfmt_partition {t : PyStr} (h : ZFmtP t) :
    ∃ hd tl, partitionColon t = some (hd, tl) ∧ '-' ∈ hd := by
  obtain ⟨a, b, c, d, e, f, ha, hb, hc, hdd, he, hf, rfl⟩ := h
  refine ⟨a ++ '-' :: (b ++ '-' :: (c ++ ' ' :: d)), e ++ ':' :: f, ?_, by simp⟩
  have hnc : ':' ∉ a ++ '-' :: (b ++ '-' :: (c ++ ' ' :: d)) := by
    intro hm
    simp only [List.mem_append, List.mem_cons] at hm
    rcases hm with hm | hm | hm | hm | hm | hm | hm
    · exact digit_ne (ha.2 _ hm) (by decide) rfl
    · exact absurd hm (by decide)
    · exact digit_ne (hb.2 _ hm) (by decide) rfl
    · exact absurd hm (by decide)
    · exact digit_ne (hc.2 _ hm) (by decide) rfl
    · exact absurd hm (by decide)
    · exact digit_ne (hdd.2 _ hm) (by decide) rfl
  have hshape : a ++ '-' :: (b ++ '-' :: (c ++ ' ' :: (d ++ ':' :: (e ++ ':' :: f)))) =
      (a ++ '-' :: (b ++ '-' :: (c ++ ' ' :: d))) ++ ':' :: (e ++ ':' :: f) := by
    simp [List.append_assoc]
  rw [hshape]
  exact partitionColon_append hnc

/-! ## Lemmas: the single-token normalizer -/

theorem dateOnly_append_zfmt {l y mo d : PyStr} (h : dateOnlyShape l = some (y, mo, d))
    (ub : Bool) : ZFmtP (l ++ (if ub then pys " 23:59:59" else pys " 00:00:00")) := by
  obtain ⟨rfl, hy, hm, hd⟩ := dateOnly_sound h
  cases ub
  · have e1 : pys " 00:00:00" =
        ' ' :: (['0', '0'] ++ ':' :: (['0', '0'] ++ ':' :: ['0', '0'])) := rfl
    refine ⟨y, mo, d, ['0', '0'], ['0', '0'], ['0', '0'], hy, hm, hd,
      ⟨by simp, by decide⟩, ⟨by simp, by decide⟩, ⟨by simp, by decide⟩, ?_⟩
    rw [if_neg (by simp), e1]
    simp [List.append_assoc]
  · have e1 : pys " 23:59:59" =
        ' ' :: (['2', '3'] ++ ':' :: (['5', '9'] ++ ':' :: ['5', '9'])) := rfl
    refine ⟨y, mo, d, ['2', '3'], ['5', '9'], ['5', '9'], hy, hm, hd,
      ⟨by simp, by decide⟩, ⟨by simp, by decide⟩, ⟨by simp, by decide⟩, ?_⟩
    rw [if_pos (by simp), e1]
    simp [List.append_assoc]

theorem parse_iso_ok_zfmt {s out : PyStr} (h : parse_iso_to_zenml s = .ok (some out)) :
    ZFmtP out := by
  unfold parse_iso_to_zenml at h
  split at h
  · simp at h
  · split at h
    · split at h
      · simp only [Except.ok.injEq, Option.some.injEq] at h
        subst h
        exact strftime_zfmt ..
      · split at h
        all_goals simp only [] at h
        all_goals split at h
        · exact Except.noConfusion h
        · simp only [Except.ok.injEq, Option.some.injEq] at h
          subst h
          exact strftime_zfmt ..
        · exact Except.noConfusion h
        · simp only [Except.ok.injEq, Option.some.injEq] at h
          subst h
          exact strftime_zfmt ..
    · simp at h

theorem normTok_strip_arg (ub : Bool) (s : PyStr) :
    norm_datetime_token ub (pyStrip s) = norm_datetime_token ub s := by
  unfold norm_datetime_token
  rw [pyStrip_idem]

theorem normTok_cases {ub : Bool} {s t : PyStr} (h : norm_datetime_token ub s = .ok t) :
    t = pyStrip s ∨ ZFmtP t := by
  unfold norm_datetime_token at h
  simp only [] at h
  cases hA : (if isoRe (pyStrip s) = true then parse_iso_to_zenml (pyStrip s)
      else Except.ok none) with
  | error e => rw [hA] at h; exact Except.noConfusion h
  | ok o =>
      rw [hA] at h
      cases o with
      | some parsed =>
          simp only [Except.ok.injEq] at h
          subst h
          right
          by_cases hiso : isoRe (pyStrip s)
          · rw [if_pos hiso] at hA
            exact parse_iso_ok_zfmt hA
          · rw [if_neg hiso] at hA
            exact Option.noConfusion (Except.ok.inj hA)
      | none =>
          cases hB : spaceFracShape (pyStrip s) with
          | some g =>
              rw [hB] at h
              simp only [Except.ok.injEq] at h
              subst h
              exact Or.inr (spaceFrac_sound hB).1
          | none =>
              rw [hB] at h
              by_cases hdo : dateOnlyRe (pyStrip s)
              · rw [if_pos hdo] at h
                simp only [Except.ok.injEq] at h
                subst h
                right
                unfold dateOnlyRe at hdo
                rw [Option.isSome_iff_exists] at hdo
                obtain ⟨⟨y, mo, d⟩, hp⟩ := hdo
                exact dateOnly_append_zfmt hp ub
              · rw [if_neg hdo] at h
                simp only [Except.ok.injEq] at h
                subst h
                exact Or.inl rfl

theorem normTok_idem {ub : Bool} {s t : PyStr} (h : norm_datetime_token ub s = .ok t) :
    norm_datetime_token ub t = .ok t := by
  rcases normTok_cases h with ht | hz
  · rw [ht, normTok_strip_arg, h, ht]
  · exact zfmt_normTok hz ub

theorem normTok_comma {ub : Bool} {s t : PyStr} (h : norm_datetime_token ub s = .ok t)
    (hc : ',' ∈ t) : ',' ∈ s := by
  rcases normTok_cases h with ht | hz
  · exact mem_of_mem_pyStrip (ht ▸ hc)
  · exact absurd hc (zfmt_not_mem hz (by decide) (by decide) (by decide) (by decide))

theorem normTok_stripped {ub : Bool} {s t : PyStr} (h : norm_datetime_token ub s = .ok t) :
    pyStrip t = t := by
  rcases normTok_cases h with ht | hz
  · rw [ht]; exact pyStrip_idem s
  · exact zfmt_strip hz

/-! ## Lemmas: the operator table -/

theorem known_ops_good : ∀ o ∈ KNOWN_OPS, opGood o = true := by
  intro o ho
  simp only [KNOWN_OPS, List.mem_cons, List.not_mem_nil, or_false] at ho
  rcases ho with rfl | rfl | rfl | rfl | rfl | rfl | rfl | rfl | rfl | rfl | rfl <;> decide

theorem opGood_colon {o : PyStr} (h : opGood o = true) : ':' ∉ o := by
  unfold opGood at h
  simp only [Bool.and_eq_true, decide_eq_true_eq] at h
  exact h.1.1.1

theorem opGood_dash {o : PyStr} (h : opGood o = true) : '-' ∉ o := by
  unfold opGood at h
  simp only [Bool.and_eq_true, decide_eq_true_eq] at h
  exact h.1.1.2

theorem opGood_ne_nil {o : PyStr} (h : opGood o = true) : o ≠ [] := by
  unfold opGood at h
  simp only [Bool.and_eq_true, decide_eq_true_eq] at h
  exact h.1.2

theorem opGood_head {o : PyStr} (h : opGood o = true) :
    ∀ c ∈ o.head?, pyIsSpace c = false ∧ c ≠ 'r' := by
  unfold opGood at h
  intro c hc
  cases ho : o.head? with
  | none => rw [ho] at hc; exact Option.noConfusion hc
  | some c0 =>
      rw [ho] at hc h
      have e1 : c0 = c := Option.some.inj hc
      subst e1
      simp only [Bool.and_eq_true, Bool.not_eq_true', decide_eq_true_eq] at h
      exact h.2

/-! ## Lemmas: strings of the shapes the normalizer emits are fixed points -/

theorem rangeRe_cons_ne_r {c : Char} {z : PyStr} (hc : c ≠ 'r') : rangeRe (c :: z) = none := by
  cases hr : rangeRe (c :: z) with
  | none => rfl
  | some q =>
      obtain ⟨rest, he⟩ := rangeRe_prefix hr
      injection he with h1 _
      exact absurd h1 hc

theorem normalize_in_form {l u : PyStr}
    (hl : norm_datetime_token false l = .ok l)
    (hu : norm_datetime_token true u = .ok u)
    (hlc : ',' ∉ l)
    (hus : pyStrip u = u) :
    normalize_datetime_filter (pys "in:" ++ l ++ ',' :: u) =
      .ok (pys "in:" ++ l ++ ',' :: u) := by
  have hyform : pys "in:" ++ l ++ ',' :: u = 'i' :: 'n' :: ':' :: (l ++ ',' :: u) := by
    have e : pys "in:" = 'i' :: 'n' :: ':' :: [] := rfl
    rw [e]
    simp
  rw [hyform]
  have hstrip : pyStrip ('i' :: 'n' :: ':' :: (l ++ ',' :: u)) =
      'i' :: 'n' :: ':' :: (l ++ ',' :: u) := by
    apply pyStrip_eq_self
    · intro c hc
      obtain rfl := Option.some.inj hc
      decide
    · intro c hc
      rw [getLast?_cons_ne (by simp), getLast?_cons_ne (by simp),
          getLast?_cons_ne (by simp), getLast?_append_cons] at hc
      cases u with
      | nil =>
          obtain rfl := Option.some.inj hc
          decide
      | cons u0 urest =>
          rw [getLast?_cons_ne (by simp)] at hc
          exact pyStrip_getLast hus c hc
  have hpart : partitionColon ('i' :: 'n' :: ':' :: (l ++ ',' :: u)) =
      some (['i', 'n'], l ++ ',' :: u) := rfl
  have hsc : splitComma1 (l ++ ',' :: u) = (l, u) := splitComma1_append hlc
  unfold normalize_datetime_filter
  simp only []
  rw [hstrip]
  rw [if_neg (by simp)]
  rw [rangeRe_cons_ne_r (by decide)]
  rw [hpart]
  simp only []
  rw [if_pos (show (['i', 'n'] : PyStr) ∈ KNOWN_OPS by decide)]
  simp only []
  rw [if_pos (show (['i', 'n'] : PyStr) = pys "in" ∧ ',' ∈ l ++ ',' :: u by
    exact ⟨rfl, by simp⟩)]
  rw [hsc]
  unfold normalizePair
  rw [hl, hu]
  simp only []
  rw [hyform]

theorem normalize_op_form {op t : PyStr} (hop : op ∈ KNOWN_OPS)
    (hnotin : ¬ (op = pys "in" ∧ ',' ∈ t))
    (ht : norm_datetime_token (decide (op ∈ UPPER_BOUND_OPS)) t = .ok t)
    (hts : pyStrip t = t) :
    normalize_datetime_filter (op ++ ':' :: t) = .ok (op ++ ':' :: t) := by
  have hgood := known_ops_good op hop
  obtain ⟨c0, os, rfl⟩ : ∃ c0 os, op = c0 :: os := by
    cases op with
    | nil => exact absurd rfl (opGood_ne_nil hgood)
    | cons a b => exact ⟨a, b, rfl⟩
  have hc0 := opGood_head hgood c0 rfl
  have hstrip : pyStrip ((c0 :: os) ++ ':' :: t) = (c0 :: os) ++ ':' :: t := by
    apply pyStrip_eq_self
    · intro c hc
      obtain rfl := Option.some.inj hc
      simp [hc0.1]
    · intro c hc
      rw [getLast?_append_cons] at hc
      cases t with
      | nil =>
          obtain rfl := Option.some.inj hc
          decide
      | cons t0 ts =>
          rw [getLast?_cons_ne (by simp)] at hc
          exact pyStrip_getLast hts c hc
  have hrange : rangeRe ((c0 :: os) ++ ':' :: t) = none := by
    show rangeRe (c0 :: (os ++ ':' :: t)) = none
    exact rangeRe_cons_ne_r hc0.2
  have hpart : partitionColon ((c0 :: os) ++ ':' :: t) = some (c0 :: os, t) :=
    partitionColon_append (opGood_colon hgood)
  unfold normalize_datetime_filter
  simp only []
  rw [hstrip]
  rw [if_neg (by simp)]
  rw [hrange, hpart]
  simp only []
  rw [if_pos hop]
  simp only []
  rw [if_neg hnotin]
  rw [ht]

theorem normalize_zfmt_form {t : PyStr} (hz : ZFmtP t) :
    normalize_datetime_filter t = .ok t := by
  obtain ⟨hd, tl, hpart, hdash⟩ := zfmt_partition hz
  have hhd : hd ∉ KNOWN_OPS := fun hmem =>
    absurd hdash (opGood_dash (known_ops_good hd hmem))
  unfold normalize_datetime_filter
  simp only []
  rw [zfmt_strip hz, if_neg (zfmt_ne_nil hz), zfmt_range_none hz, hpart]
  simp only []
  rw [if_neg hhd]
  simp only []
  exact zfmt_normTok hz false

theorem normalize_idem_of_no_range_comma {x y : PyStr}
    (hx : rangeLowerComma x = false)
    (h : normalize_datetime_filter x = .ok y) :
    normalize_datetime_filter y = .ok y := by
  unfold normalize_datetime_filter at h
  simp only [] at h
  by_cases hnil : pyStrip x = []
  · rw [if_pos hnil] at h
    obtain rfl := Except.ok.inj h
    unfold normalize_datetime_filter
    simp only []
    rw [if_pos hnil]
  · rw [if_neg hnil] at h
    cases hR : rangeRe (pyStrip x) with
    | some lu =>
        rw [hR] at h
        simp only [] at h
        unfold normalizePair at h
        cases hl : norm_datetime_token false lu.1 with
        | error e => rw [hl] at h; exact Except.noConfusion h
        | ok l =>
            rw [hl] at h
            cases hu : norm_datetime_token true lu.2 with
            | error e => rw [hu] at h; exact Except.noConfusion h
            | ok u =>
                rw [hu] at h
                simp only [Except.ok.injEq] at h
                subst h
                have hxc : ',' ∉ lu.1 := by
                  unfold rangeLowerComma at hx
                  rw [hR] at hx
                  exact of_decide_eq_false hx
                exact normalize_in_form (normTok_idem hl) (normTok_idem hu)
                  (fun hc => hxc (normTok_comma hl hc)) (normTok_stripped hu)
    | none =>
        rw [hR] at h
        simp only [] at h
        cases hP : partitionColon (pyStrip x) with
        | some ht =>
            rw [hP] at h
            simp only [] at h
            by_cases hmem : ht.1 ∈ KNOWN_OPS
            · rw [if_pos hmem] at h
              simp only [] at h
              by_cases hin : ht.1 = pys "in" ∧ ',' ∈ ht.2
              · rw [if_pos hin] at h
                unfold normalizePair at h
                cases hl : norm_datetime_token false (splitComma1 ht.2).1 with
                | error e => rw [hl] at h; exact Except.noConfusion h
                | ok l =>
                    rw [hl] at h
                    cases hu : norm_datetime_token true (splitComma1 ht.2).2 with
                    | error e => rw [hu] at h; exact Except.noConfusion h
                    | ok u =>
                        rw [hu] at h
                        simp only [Except.ok.injEq] at h
                        subst h
                        exact normalize_in_form (normTok_idem hl) (normTok_idem hu)
                          (fun hc => splitComma1_fst_no_comma ht.2 (normTok_comma hl hc))
                          (normTok_stripped hu)
              · rw [if_neg hin] at h
                cases hn : norm_datetime_token (decide (ht.1 ∈ UPPER_BOUND_OPS)) ht.2 with
                | error e => rw [hn] at h; exact Except.noConfusion h
                | ok n =>
                    rw [hn] at h
                    simp only [Except.ok.injEq] at h
                    subst h
                    refine normalize_op_form hmem ?_ (normTok_idem hn) (normTok_stripped hn)
                    rintro ⟨he, hcm⟩
                    exact hin ⟨he, normTok_comma hn hcm⟩
            · rw [if_neg hmem] at h
              simp only [] at h
              rcases normTok_cases h with hy | hz
              · rw [pyStrip_idem] at hy
                subst hy
                unfold normalize_datetime_filter
                simp only []
                rw [pyStrip_idem, if_neg hnil, hR, hP]
                simp only []
                rw [if_neg hmem]
                simp only []
                exact h
              · exact normalize_zfmt_form hz
        | none =>
            rw [hP] at h
            simp only [] at h
            rcases normTok_cases h with hy | hz
            · rw [pyStrip_idem] at hy
              subst hy
              unfold normalize_datetime_filter
              simp only []
              rw [pyStrip_idem, if_neg hnil, hR, hP]
              simp only []
              exact h
            · exact normalize_zfmt_form hz

/-! ## Lemmas: evaluating the normalizer on `op:payload` inputs -/

theorem normTok_passthrough {ub : Bool} {p : PyStr} (hps : pyStrip p = p)
    (hiso : isoRe p = false) (hfrac : spaceFracShape p = none)
    (hdo : dateOnlyRe p = false) :
    norm_datetime_token ub p = .ok p := by
  simp [norm_datetime_token, hps, hiso, hfrac, hdo]

theorem normalize_op_eval {op t : PyStr} (hop : op ∈ KNOWN_OPS)
    (hnotin : ¬ (op = pys "in" ∧ ',' ∈ t)) (hts : pyStrip t = t) :
    normalize_datetime_filter (op ++ ':' :: t) =
      match norm_datetime_token (decide (op ∈ UPPER_BOUND_OPS)) t with
      | .error e => .error e
      | .ok n => .ok (op ++ ':' :: n) := by
  have hgood := known_ops_good op hop
  obtain ⟨c0, os, rfl⟩ : ∃ c0 os, op = c0 :: os := by
    cases op with
    | nil => exact absurd rfl (opGood_ne_nil hgood)
    | cons a b => exact ⟨a, b, rfl⟩
  have hc0 := opGood_head hgood c0 rfl
  have hstrip : pyStrip ((c0 :: os) ++ ':' :: t) = (c0 :: os) ++ ':' :: t := by
    apply pyStrip_eq_self
    · intro c hc
      obtain rfl := Option.some.inj hc
      simp [hc0.1]
    · intro c hc
      rw [getLast?_append_cons] at hc
      cases t with
      | nil =>
          obtain rfl := Option.some.inj hc
          decide
      | cons t0 ts =>
          rw [getLast?_cons_ne (by simp)] at hc
          exact pyStrip_getLast hts c hc
  have hrange : rangeRe ((c0 :: os) ++ ':' :: t) = none := by
    show rangeRe (c0 :: (os ++ ':' :: t)) = none
    exact rangeRe_cons_ne_r hc0.2
  have hpart : partitionColon ((c0 :: os) ++ ':' :: t) = some (c0 :: os, t) :=
    partitionColon_append (opGood_colon hgood)
  unfold normalize_datetime_filter
  simp only []
  rw [hstrip]
  rw [if_neg (by simp)]
  rw [hrange, hpart]
  simp only []
  rw [if_pos hop]
  simp only []
  rw [if_neg hnotin]

theorem dateOnly_basic {D : PyStr} (hD : dateOnlyRe D = true) :
    pyStrip D = D ∧ isoRe D = false ∧ spaceFracShape D = none ∧ ':' ∉ D ∧
      D ≠ [] ∧ (∀ c ∈ D.head?, pyIsSpace c = false ∧ c ≠ 'r') := by
  obtain ⟨hne, hch⟩ := dateOnly_chars hD
  have hnotmem : ∀ x : Char, x.isDigit = false → x ≠ '-' → x ∉ D := by
    intro x hxd hxdash hx
    rcases hch x hx with hc | hc
    · rw [hc] at hxd; exact Bool.noConfusion hxd
    · exact hxdash hc
  have hhead : ∀ c ∈ D.head?, pyIsSpace c = false ∧ c ≠ 'r' := by
    intro c hc
    have hmem : c ∈ D := List.mem_of_mem_head? hc
    rcases hch c hmem with hc' | hc'
    · exact ⟨digit_not_space hc', digit_ne hc' (by decide)⟩
    · subst hc'
      exact ⟨by decide, by decide⟩
  refine ⟨?_, ?_, ?_, hnotmem ':' (by decide) (by decide), hne, hhead⟩
  · apply pyStrip_eq_self
    · intro c hc
      simp [(hhead c hc).1]
    · intro c hc
      have hmem : c ∈ D := List.mem_of_getLast?_eq_some hc
      rcases hch c hmem with hc' | hc'
      · simp [digit_not_space hc']
      · subst hc'
        decide
  · unfold isoRe
    cases hp : parseIsoShape D with
    | none => rfl
    | some p => exact absurd (iso_T_mem hp) (hnotmem 'T' (by decide) (by decide))
  · cases hp : spaceFracShape D with
    | none => rfl
    | some g => exact absurd (spaceFrac_sound hp).2 (hnotmem '.' (by decide) (by decide))

theorem normTok_dateonly {ub : Bool} {D : PyStr} (hD : dateOnlyRe D = true) :
    norm_datetime_token ub D =
      .ok (D ++ (if ub = true then pys " 23:59:59" else pys " 00:00:00")) := by
  obtain ⟨hs, hiso, hfrac, _, _, _⟩ := dateOnly_basic hD
  simp [norm_datetime_token, hs, hiso, hfrac, hD]

theorem normalize_bare_dateonly {D : PyStr} (hD : dateOnlyRe D = true) :
    normalize_datetime_filter D = .ok (D ++ pys " 00:00:00") := by
  obtain ⟨hs, _, _, hcolon, hne, hhead⟩ := dateOnly_basic hD
  have hrange : rangeRe D = none := by
    obtain ⟨d0, ds, rfl⟩ : ∃ d0 ds, D = d0 :: ds := by
      cases D with
      | nil => exact absurd rfl hne
      | cons a b => exact ⟨a, b, rfl⟩
    exact rangeRe_cons_ne_r (hhead d0 rfl).2
  have hpart : partitionColon D = none := partitionColon_none hcolon
  unfold normalize_datetime_filter
  simp only []
  rw [hs, if_neg hne, hrange, hpart]
  simp only []
  rw [normTok_dateonly hD]
  simp

/-! ## Lemmas: the exception classifier -/

theorem classify_ok_of_str {devMode : Bool} {tool : PyStr} {exc : PyExc}
    {st : Option Int} {s : PyStr} (hs : exc.strval = some s) :
    ∃ r, classify_exception devMode tool exc st = .ok r := by
  have hps : pyStrOfExc exc = .ok s := by unfold pyStrOfExc; rw [hs]
  unfold classify_exception
  simp only [hps]
  repeat' split
  all_goals
    first
      | exact ⟨_, rfl⟩
      | (rename_i heq; split at heq <;> exact Except.noConfusion heq)

theorem classify_validation_eval {devMode : Bool} {tool : PyStr} {exc : PyExc}
    {st : Option Int} {s : PyStr}
    (hv : is_validation exc = true) (hh : exc.isHTTPError = false)
    (hs : exc.strval = some s) :
    classify_exception devMode tool exc st =
      .ok (pys "ValidationError",
           (if startsWithStr (pys "list_") tool = true then
              (pys "Validation failed. Please check your inputs.\n\n" ++ s.take 300) ++
                filterSyntaxBlock
            else pys "Validation failed. Please check your inputs.\n\n" ++ s.take 300),
           dictSet (pys "validation_error") (.vs (s.take 300))
             [(pys "raw_type", .vs exc.raw_type)]) := by
  have hps : pyStrOfExc exc = .ok s := by unfold pyStrOfExc; rw [hs]
  unfold classify_exception
  rw [if_neg (by simp [hh]), if_pos hv, hps]

theorem classify_import_eval {devMode : Bool} {tool : PyStr} {exc : PyExc}
    {st : Option Int} {m : PyStr}
    (hi : exc.isImportError = true) (hh : exc.isHTTPError = false)
    (hv : is_validation exc = false) (hs : exc.strval = some m)
    (henv : exc.isValueError = true → envVarMatch (pyStrip m) = none) :
    classify_exception devMode tool exc st =
      .ok (pys "DependencyMissing", pys "Missing dependency or integration: " ++ m,
           dictSet (pys "import_error") (.vs m) [(pys "raw_type", .vs exc.raw_type)]) := by
  have hps : pyStrOfExc exc = .ok m := by unfold pyStrOfExc; rw [hs]
  unfold classify_exception
  rw [if_neg (by simp [hh]), if_neg (by simp [hv])]
  by_cases hval : exc.isValueError
  · rw [if_pos hval, hps]
    simp only []
    rw [henv hval]
    simp only []
    rw [if_pos hi]
  · rw [if_neg hval]
    simp only []
    rw [if_pos hi, hps]

theorem classify_import_never_unexpected {devMode : Bool} {tool : PyStr} {exc : PyExc}
    {st : Option Int} (hi : exc.isImportError = true) :
    ∀ cat msg det, classify_exception devMode tool exc st = .ok (cat, msg, det) →
      cat ≠ pys "UnexpectedError" := by
  intro cat msg det hok
  unfold classify_exception at hok
  repeat' split at hok
  all_goals
    first
      | exact Except.noConfusion hok
      | exact absurd hi (by assumption)
      | (simp only [Except.ok.injEq, Prod.mk.injEq] at hok
         obtain ⟨he, -⟩ := hok
         subst he
         decide)

/-! ## Lemmas: the bounded event queue -/

theorem ensure_sender_queue (st : AnalyticsState) :
    (ensure_sender_thread_started st).event_queue = st.event_queue := by
  unfold ensure_sender_thread_started
  split <;> rfl

theorem send_events_full_drop {evs : List TrackEvent} {st : AnalyticsState}
    (hfull : ANALYTICS_QUEUE_MAXSIZE ≤ st.event_queue.length) :
    (send_events evs st).event_queue = st.event_queue := by
  unfold send_events
  by_cases hevs : evs = []
  · rw [if_pos hevs]
  · rw [if_neg hevs]
    unfold put_nowait
    simp only []
    rw [if_pos (by rw [ensure_sender_queue]; exact hfull)]
    exact ensure_sender_queue st

theorem send_events_append {evs : List TrackEvent} {st : AnalyticsState}
    (hroom : st.event_queue.length < ANALYTICS_QUEUE_MAXSIZE) (hne : evs ≠ []) :
    (send_events evs st).event_queue = st.event_queue ++ [some evs] := by
  unfold send_events
  rw [if_neg hne]
  unfold put_nowait
  simp only []
  rw [if_neg (by rw [ensure_sender_queue]; omega)]
  simp [ensure_sender_queue]

theorem send_events_bound {evs : List TrackEvent} {st : AnalyticsState}
    (h : st.event_queue.length ≤ ANALYTICS_QUEUE_MAXSIZE) :
    (send_events evs st).event_queue.length ≤ ANALYTICS_QUEUE_MAXSIZE := by
  by_cases hevs : evs = []
  · unfold send_events
    rw [if_pos hevs]
    exact h
  · by_cases hfull : ANALYTICS_QUEUE_MAXSIZE ≤ st.event_queue.length
    · rw [send_events_full_drop hfull]
      exact h
    · rw [send_events_append (by omega) hevs]
      simp only [List.length_append, List.length_singleton]
      omega

theorem send_events_foldl_bound (calls : List (List TrackEvent)) :
    ∀ st : AnalyticsState, st.event_queue.length ≤ ANALYTICS_QUEUE_MAXSIZE →
      ((calls.foldl (fun s e => send_events e s) st).event_queue.length ≤
        ANALYTICS_QUEUE_MAXSIZE) := by
  induction calls with
  | nil => intro st h; exact h
  | cons c cs ih =>
      intro st h
      exact ih _ (send_events_bound h)

/-! ## Lemmas: session-property dictionaries -/

theorem dictGet_dictSet_self {α : Type} (k : PyStr) (v : α) (d : PyDict α) :
    dictGet k (dictSet k v d) = some v := by
  induction d with
  | nil => simp [dictSet, dictGet]
  | cons kv rest ih =>
      obtain ⟨k', v'⟩ := kv
      by_cases hk : k' = k
      · simp [dictSet, dictGet, hk]
      · simp only [dictSet, if_neg hk]
        simp only [dictGet, if_neg hk]
        exact ih

theorem dictGet_append_left {α : Type} {k : PyStr} {d : PyDict α} {v : α}
    (h : dictGet k d = some v) (e : PyDict α) : dictGet k (d ++ e) = some v := by
  induction d with
  | nil => simp [dictGet] at h
  | cons kv rest ih =>
      obtain ⟨k', v'⟩ := kv
      by_cases hk : k' = k
      · simp only [dictGet, if_pos hk] at h
        simp only [List.cons_append, dictGet, if_pos hk]
        exact h
      · simp only [dictGet, if_neg hk] at h
        simp only [List.cons_append, dictGet, if_neg hk]
        exact ih h

theorem dictGet_setdefault_preserve {α : Type} {k k' : PyStr} {v : α} {d : PyDict α}
    (h : dictGet k d = some v) (w : α) :
    dictGet k (dictSetdefault k' w d) = some v := by
  unfold dictSetdefault
  split
  · exact h
  · exact dictGet_append_left h _

theorem set_client_info_once_preserve {k : PyStr} {v : DetailVal}
    {nm vv : Option PyStr} {sp : PyDict DetailVal}
    (h : dictGet k sp = some v) :
    dictGet k (set_client_info_once nm vv sp) = some v := by
  unfold set_client_info_once
  simp only []
  repeat' split
  all_goals
    first
      | exact h
      | exact dictGet_setdefault_preserve h _
      | exact dictGet_setdefault_preserve (dictGet_setdefault_preserve h _) _

theorem set_client_info_once_blank {nm vv : Option PyStr} {sp : PyDict DetailVal}
    (hn : ∀ s ∈ nm, pyStrip s = []) (hv : ∀ s ∈ vv, pyStrip s = []) :
    set_client_info_once nm vv sp = sp := by
  unfold set_client_info_once
  simp only []
  cases nm with
  | none =>
      cases vv with
      | none => rfl
      | some sv =>
          by_cases hsv : sv = [] <;> simp [hsv, hv sv rfl]
  | some sn =>
      by_cases hsn : sn = []
      · cases vv with
        | none => simp [hsn]
        | some sv =>
            by_cases hsv : sv = [] <;> simp [hsn, hsv, hv sv rfl]
      · cases vv with
        | none => simp [hsn, hn sn rfl]
        | some sv =>
            by_cases hsv : sv = [] <;> simp [hsn, hsv, hn sn rfl, hv sv rfl]

theorem set_session_properties_overwrites (k : PyStr) (v : DetailVal)
    (sp : PyDict DetailVal) :
    dictGet k (set_session_properties [(k, v)] sp) = some v := by
  unfold set_session_properties dictUpdate
  simp only [List.foldl_cons, List.foldl_nil]
  exact dictGet_dictSet_self k v sp

/-! ## Lemmas: size-argument extraction -/

theorem extract_size_ok {fn : PyStr} {args : List PyVal} {kw : PyDict PyVal}
    (hinf : ∀ v, dictGet (pys "size") kw = some v →
      v ≠ PyVal.vfloat .inf ∧ v ≠ PyVal.vfloat .neginf) :
    ∃ r, extract_size_from_call fn args kw = .ok r := by
  unfold extract_size_from_call
  cases hv : dictGet (pys "size") kw with
  | none => exact ⟨_, rfl⟩
  | some v =>
      obtain ⟨h1, h2⟩ := hinf v hv
      simp only [Option.getD_some]
      cases v with
      | vnone => exact ⟨_, rfl⟩
      | vint n => exact ⟨_, rfl⟩
      | vstr s =>
          unfold coerce_to_int
          simp only []
          cases hps : pyIntOfStr s with
          | none => exact ⟨_, rfl⟩
          | some n => exact ⟨_, rfl⟩
      | vfloat f =>
          cases f with
          | nan => exact ⟨_, rfl⟩
          | inf => exact absurd rfl h1
          | neginf => exact absurd rfl h2
          | finite t => exact ⟨_, rfl⟩
      | vother => exact ⟨_, rfl⟩

theorem extract_size_range {fn : PyStr} {args : List PyVal} {kw : PyDict PyVal} {n : Int}
    (h : extract_size_from_call fn args kw = .ok (some n)) : 1 ≤ n ∧ n ≤ 10000 := by
  unfold extract_size_from_call coerce_to_int at h
  simp only [] at h
  repeat' split at h
  all_goals
    first
      | exact Except.noConfusion h
      | ((simp only [Except.ok.injEq, Option.some.injEq] at h) <;> omega)
      | ((simp at h) <;> omega)

/-! ## Claim theorems -/

/-- C1 (amended): for every tool name, every optional HTTP status and every
exception whose `str()` conversion returns a value (this includes exception
subclasses whose `args` are not strings), `_classify_exception` returns a
`(category, message, details)` triple and never raises; moreover the
never-raises guarantee extends to some exceptions whose `__str__` raises —
for example an HTTP-error instance with status 401 is classified without
`str(exc)` ever being called.  (As stated over all exceptions the claim
fails: there is an exception whose raising `__str__` is reached by an
unguarded `str(exc)` call in the classifier and propagates — see the
counterexample.) -/
theorem c1_classify_total_when_str_succeeds :
    (∀ (devMode : Bool) (tool : PyStr) (exc : PyExc) (st : Option Int) (s : PyStr),
      exc.strval = some s →
      ∃ r, classify_exception devMode tool exc st = .ok r) ∧
    ((PyExc.mk (pys "HTTPError") (pys "requests.exceptions") none
        true false false false false false).strval = none ∧
      ∃ r, classify_exception false (pys "get_x")
          (PyExc.mk (pys "HTTPError") (pys "requests.exceptions") none
            true false false false false false) (some 401) = .ok r) :=
  ⟨fun _ _ _ _ _ hs => classify_ok_of_str hs,
   rfl,
   ⟨(pys "AuthenticationError",
     pys "Authentication failed. Please check your API key.",
     [(pys "raw_type", .vs (pys "HTTPError")), (pys "http_status_code", .vi 401)]),
    by decide⟩⟩

theorem c1_classify_total_witness :
    (PyExc.mk (pys "ValueError") (pys "builtins") (some (pys "boom"))
        false true false false false false).strval = some (pys "boom") ∧
    ∃ r, classify_exception false (pys "get_x")
        (PyExc.mk (pys "ValueError") (pys "builtins") (some (pys "boom"))
          false true false false false false) none = .ok r :=
  ⟨rfl, c1_classify_total_when_str_succeeds.1 false (pys "get_x") _ none (pys "boom") rfl⟩

/-- C1 counterexample: an exception whose `__str__` raises (modelled by
`strval = none`) and which reaches one of the classifier branches that do
call `str(exc)` — here a plain non-HTTP, non-validation exception falling
through to the default branch — makes `_classify_exception` raise instead of
returning a triple, refuting the claim as stated. -/
theorem c1_classify_counterexample :
    classify_exception false (pys "t")
      (PyExc.mk (pys "Weird") (pys "m") none false false false false false false)
      none = .error .strRaises := by decide

/-- C2 (amended): `_normalize_datetime_filter` is idempotent on every input
on which it terminates normally, except `range:` filters whose lazy lower
part contains a comma: if `rangeLowerComma x = false` and normalizing `x`
returns `y`, then normalizing `y` returns `y` unchanged. -/
theorem c2_normalize_idempotent_amended :
    ∀ x y : PyStr, rangeLowerComma x = false →
      normalize_datetime_filter x = .ok y →
      normalize_datetime_filter y = .ok y :=
  fun _ _ hx h => normalize_idem_of_no_range_comma hx h

theorem c2_normalize_idempotent_witness :
    rangeLowerComma (pys "gte:2026-02-01") = false ∧
    normalize_datetime_filter (pys "gte:2026-02-01") =
      .ok (pys "gte:2026-02-01 00:00:00") ∧
    normalize_datetime_filter (pys "gte:2026-02-01 00:00:00") =
      .ok (pys "gte:2026-02-01 00:00:00") :=
  ⟨by decide, by decide,
   c2_normalize_idempotent_amended (pys "gte:2026-02-01")
     (pys "gte:2026-02-01 00:00:00") (by decide) (by decide)⟩

/-- C2 counterexample: on `range:2026-02-01,x..2026-02-02` the normalizer is
not idempotent — the first pass leaves a comma inside the lower bound of the
produced `in:` filter, and the second pass re-splits at that comma and
appends a time-of-day again. -/
theorem c2_normalize_counterexample :
    normalize_datetime_filter (pys "range:2026-02-01,x..2026-02-02") =
      .ok (pys "in:2026-02-01,x,2026-02-02 23:59:59") ∧
    normalize_datetime_filter (pys "in:2026-02-01,x,2026-02-02 23:59:59") =
      .ok (pys "in:2026-02-01 00:00:00,x,2026-02-02 23:59:59") ∧
    pys "in:2026-02-01 00:00:00,x,2026-02-02 23:59:59" ≠
      pys "in:2026-02-01,x,2026-02-02 23:59:59" := by decide

/-- C3: for every date-only string `D` of shape `YYYY-MM-DD`, the operators
`gte`, `gt`, `equals` get `" 00:00:00"` appended to `D`, the operators `lte`,
`lt` get `" 23:59:59"` appended, and a bare date-only value gets
`" 00:00:00"` appended. -/
theorem c3_date_only_normalization :
    ∀ D : PyStr, dateOnlyRe D = true →
      (∀ op ∈ [pys "gte", pys "gt", pys "equals"],
        normalize_datetime_filter (op ++ ':' :: D) =
          .ok (op ++ ':' :: (D ++ pys " 00:00:00"))) ∧
      (∀ op ∈ [pys "lte", pys "lt"],
        normalize_datetime_filter (op ++ ':' :: D) =
          .ok (op ++ ':' :: (D ++ pys " 23:59:59"))) ∧
      normalize_datetime_filter D = .ok (D ++ pys " 00:00:00") := by
  intro D hD
  have hts := (dateOnly_basic hD).1
  refine ⟨?_, ?_, normalize_bare_dateonly hD⟩
  · intro op hop
    have hnotin : ¬ (op = pys "in" ∧ ',' ∈ D) := by
      rintro ⟨rfl, -⟩
      exact absurd hop (by decide)
    simp only [List.mem_cons, List.not_mem_nil, or_false] at hop
    rcases hop with rfl | rfl | rfl
    all_goals
      rw [normalize_op_eval (by decide) hnotin hts, normTok_dateonly hD]
    all_goals rfl
  · intro op hop
    have hnotin : ¬ (op = pys "in" ∧ ',' ∈ D) := by
      rintro ⟨rfl, -⟩
      exact absurd hop (by decide)
    simp only [List.mem_cons, List.not_mem_nil, or_false] at hop
    rcases hop with rfl | rfl
    all_goals
      rw [normalize_op_eval (by decide) hnotin hts, normTok_dateonly hD]
    all_goals rfl

theorem c3_date_only_witness :
    dateOnlyRe (pys "2026-02-01") = true ∧
    normalize_datetime_filter (pys "gte:2026-02-01") =
      .ok (pys "gte:2026-02-01 00:00:00") ∧
    normalize_datetime_filter (pys "lte:2026-02-01") =
      .ok (pys "lte:2026-02-01 23:59:59") ∧
    normalize_datetime_filter (pys "2026-02-01") =
      .ok (pys "2026-02-01 00:00:00") := by
  have h := c3_date_only_normalization (pys "2026-02-01") (by decide)
  refine ⟨by decide, ?_, ?_, h.2.2⟩
  · exact h.1 (pys "gte") (by decide)
  · exact h.2.1 (pys "lte") (by decide)

/-- C4 (amended): a filter whose operator prefix is one of `contains:`,
`oneof:`, `startswith:`, `endswith:`, `notequals:` is returned unchanged
provided its payload is whitespace-stripped and not datetime-shaped (matches
none of the date-only, ISO-8601 or fractional-seconds patterns).  (As stated,
for an arbitrary payload, the claim fails: a date-shaped payload such as
`contains:2026-02-01` has a time-of-day appended — see the counterexample.) -/
theorem c4_non_datetime_ops_unchanged :
    ∀ op ∈ [pys "contains", pys "oneof", pys "startswith", pys "endswith",
        pys "notequals"],
      ∀ p : PyStr, pyStrip p = p → isoRe p = false → spaceFracShape p = none →
        dateOnlyRe p = false →
        normalize_datetime_filter (op ++ ':' :: p) = .ok (op ++ ':' :: p) := by
  intro op hop p hps hiso hfrac hdo
  have hnotin : ¬ (op = pys "in" ∧ ',' ∈ p) := by
    rintro ⟨rfl, -⟩
    exact absurd hop (by decide)
  have hmem : op ∈ KNOWN_OPS := by
    simp only [List.mem_cons, List.not_mem_nil, or_false] at hop
    rcases hop with rfl | rfl | rfl | rfl | rfl <;> decide
  rw [normalize_op_eval hmem hnotin hps, normTok_passthrough hps hiso hfrac hdo]

theorem c4_non_datetime_ops_witness :
    pyStrip (pys "foo") = pys "foo" ∧
    normalize_datetime_filter (pys "contains" ++ ':' :: pys "foo") =
      .ok (pys "contains" ++ ':' :: pys "foo") :=
  ⟨by decide,
   c4_non_datetime_ops_unchanged (pys "contains") (by decide) (pys "foo")
     (by decide) (by decide) (by decide) (by decide)⟩

/-- C4 counterexample: `contains:2026-02-01` is not returned unchanged — the
date-shaped payload gets `" 00:00:00"` appended even under the `contains:`
operator, because `_norm_datetime_token` runs for every recognized operator. -/
theorem c4_non_datetime_ops_counterexample :
    normalize_datetime_filter (pys "contains:2026-02-01") =
      .ok (pys "contains:2026-02-01 00:00:00") ∧
    pys "contains:2026-02-01 00:00:00" ≠ pys "contains:2026-02-01" := by decide

/-- C5 (amended): for every validation exception (class named
`ValidationError`, or pydantic module with `Validation` in the class name)
that is not a `requests.HTTPError` instance and whose `str()` succeeds, the
classifier returns category `ValidationError`; if the tool name starts with
`list_` the message contains the literal `FILTER SYNTAX REFERENCE`, and for
any other tool name the message does not contain that literal unless the
exception text itself contains it.  (As stated the claim fails for validation
exceptions that are also `requests.HTTPError` instances — see the
counterexample.) -/
theorem c5_validation_filter_block :
    ∀ (devMode : Bool) (tool : PyStr) (exc : PyExc) (st : Option Int) (s : PyStr),
      is_validation exc = true → exc.isHTTPError = false → exc.strval = some s →
      ∃ msg det,
        classify_exception devMode tool exc st = .ok (pys "ValidationError", msg, det) ∧
        (startsWithStr (pys "list_") tool = true →
          containsSub (pys "FILTER SYNTAX REFERENCE") msg = true) ∧
        (startsWithStr (pys "list_") tool = false →
          containsSub (pys "FILTER SYNTAX REFERENCE") (s.take 300) = false →
          containsSub (pys "FILTER SYNTAX REFERENCE") msg = false) := by
  intro devMode tool exc st s hv hh hs
  refine ⟨_, _, classify_validation_eval hv hh hs, ?_, ?_⟩
  · intro hlist
    rw [if_pos hlist]
    exact containsSub_append_right (by decide)
  · intro hlist hsnip
    rw [if_neg (by simp [hlist])]
    by_contra hcon
    rw [Bool.not_eq_false, containsSub_iff] at hcon
    have hsplit : pys "Validation failed. Please check your inputs.\n\n" ++ s.take 300 =
        pys "Validation failed. Please check your inputs.\n" ++ '\n' :: s.take 300 := rfl
    rw [hsplit] at hcon
    rcases infix_split_of_not_mem (by decide) hcon with hA | hB
    · have h1 := containsSub_iff.mpr hA
      have hfalse : containsSub (pys "FILTER SYNTAX REFERENCE")
          (pys "Validation failed. Please check your inputs.\n") = false := by decide
      rw [hfalse] at h1
      exact Bool.noConfusion h1
    · have h2 := containsSub_iff.mpr hB
      rw [hsnip] at h2
      exact Bool.noConfusion h2

theorem c5_validation_filter_witness :
    is_validation (PyExc.mk (pys "ValidationError") (pys "pydantic")
        (some (pys "boom")) false false false false false false) = true ∧
    ∃ msg det,
      classify_exception false (pys "list_pipeline_runs")
          (PyExc.mk (pys "ValidationError") (pys "pydantic") (some (pys "boom"))
            false false false false false false) none =
        .ok (pys "ValidationError", msg, det) ∧
      (startsWithStr (pys "list_") (pys "list_pipeline_runs") = true →
        containsSub (pys "FILTER SYNTAX REFERENCE") msg = true) ∧
      (startsWithStr (pys "list_") (pys "list_pipeline_runs") = false →
        containsSub (pys "FILTER SYNTAX REFERENCE") ((pys "boom").take 300) = false →
        containsSub (pys "FILTER SYNTAX REFERENCE") msg = false) :=
  ⟨by decide,
   c5_validation_filter_block false (pys "list_pipeline_runs") _ none (pys "boom")
     (by decide) rfl rfl⟩

/-- C5 counterexample: an exception whose class is named `ValidationError`
but which is also a `requests.HTTPError` instance is classified by the HTTP
branch, not as `ValidationError`, refuting the claim as stated. -/
theorem c5_validation_counterexample :
    classify_exception false (pys "list_x")
      (PyExc.mk (pys "ValidationError") (pys "requests.exceptions")
        (some (pys "boom")) true false false false false false) none =
      .ok (pys "UpstreamError", pys "Request failed.",
           [(pys "raw_type", .vs (pys "ValidationError"))]) ∧
    pys "UpstreamError" ≠ pys "ValidationError" := by decide

/-- C6: enqueueing events through `_send_events` never blocks and never
raises; a batch enqueued while the bounded queue (capacity 100) is full is
silently dropped, leaving the queue unchanged (nothing is evicted and the new
batch is not queued); below capacity a nonempty batch is appended; and over
any sequence of enqueue operations the queue never exceeds its capacity. -/
theorem c6_send_events_bounded_drop :
    (∀ (evs : List TrackEvent) (st : AnalyticsState),
      ANALYTICS_QUEUE_MAXSIZE ≤ st.event_queue.length →
      (send_events evs st).event_queue = st.event_queue) ∧
    (∀ (evs : List TrackEvent) (st : AnalyticsState),
      st.event_queue.length < ANALYTICS_QUEUE_MAXSIZE → evs ≠ [] →
      (send_events evs st).event_queue = st.event_queue ++ [some evs]) ∧
    (∀ (calls : List (List TrackEvent)) (st : AnalyticsState),
      st.event_queue.length ≤ ANALYTICS_QUEUE_MAXSIZE →
      (calls.foldl (fun s e => send_events e s) st).event_queue.length ≤
        ANALYTICS_QUEUE_MAXSIZE) :=
  ⟨fun _ _ h => send_events_full_drop h,
   fun _ _ h hne => send_events_append h hne,
   fun calls st h => send_events_foldl_bound calls st h⟩

theorem c6_send_events_witness :
    ANALYTICS_QUEUE_MAXSIZE ≤
      (List.replicate 100 (none : Option (List TrackEvent))).length ∧
    (send_events [TrackEvent.mk (pys "track") (pys "u") (pys "e") [] false]
        (AnalyticsState.mk none none 0 [] []
          (List.replicate 100 none) false false false false [] (pys "u")
          true false false false 0)).event_queue =
      (AnalyticsState.mk none none 0 [] []
        (List.replicate 100 none) false false false false [] (pys "u")
        true false false false 0).event_queue :=
  ⟨by decide,
   c6_send_events_bounded_drop.1
     [TrackEvent.mk (pys "track") (pys "u") (pys "e") [] false] _ (by decide)⟩

/-- C7: the shutdown coordinator body runs at most once — any invocation that
finds the one-shot flag set builds and sends nothing and leaves the state
unchanged; in a two-invocation scenario exactly one `MCP Server Shutdown`
event is built and synchronously sent.  The code slip the claim exposes: on
every early-return path (including the second invocation) the `finally` block
reads the unassigned local `sender_stopped` and raises `UnboundLocalError`
instead of returning cleanly. -/
theorem c7_shutdown_once :
    (∀ (reason : PyStr) (sig : Option PyStr) (js : Bool) (db : Nat)
        (st : AnalyticsState), st.shutdown_once = true →
      on_shutdown reason sig js db st = (.error .unboundLocalError, st)) ∧
    (let st0 : AnalyticsState :=
      AnalyticsState.mk (some (pys "sid")) (some 100) 3 [pys "list_x"] []
        [] true false false false [] (pys "u") true false false false 160
     let r1 := on_shutdown (pys "atexit") none true 10 st0
     let r2 := on_shutdown (pys "signal") (some (pys "SIGTERM")) true 10 r1.2
     r1.1 = .ok () ∧
     r1.2.sent_sync.map (fun b => b.map TrackEvent.event) =
       [[pys "MCP Server Shutdown"]] ∧
     r2.1 = .error .unboundLocalError ∧
     r2.2 = r1.2) := by
  constructor
  · intro reason sig js db st h
    unfold on_shutdown
    rw [if_pos h]
  · decide

theorem c7_shutdown_once_witness :
    on_shutdown (pys "atexit") none true 0
        (AnalyticsState.mk none none 0 [] [] [] false false true false []
          (pys "u") true false false false 0) =
      (.error .unboundLocalError,
       AnalyticsState.mk none none 0 [] [] [] false false true false []
         (pys "u") true false false false 0) :=
  c7_shutdown_once.1 (pys "atexit") none true 0 _ rfl

/-- C8 (amended): client identity captured by `set_client_info_once` uses
first-write-wins semantics — once a session-property key holds a value, a
later `set_client_info_once` call never overwrites it, and a call with
`None`/blank name and version changes nothing; `set_session_properties`
however uses `dict.update`, so a later call overwrites an existing key
(last-write-wins).  (As stated — first-write-wins for both entry points —
the claim fails for `set_session_properties`; see the counterexample.) -/
theorem c8_session_properties_semantics :
    (∀ (k : PyStr) (v : DetailVal) (nm vv : Option PyStr) (sp : PyDict DetailVal),
      dictGet k sp = some v →
      dictGet k (set_client_info_once nm vv sp) = some v) ∧
    (∀ (nm vv : Option PyStr) (sp : PyDict DetailVal),
      (∀ s ∈ nm, pyStrip s = []) → (∀ s ∈ vv, pyStrip s = []) →
      set_client_info_once nm vv sp = sp) ∧
    (∀ (k : PyStr) (v : DetailVal) (sp : PyDict DetailVal),
      dictGet k (set_session_properties [(k, v)] sp) = some v) :=
  ⟨fun _ _ _ _ _ h => set_client_info_once_preserve h,
   fun _ _ _ hn hv => set_client_info_once_blank hn hv,
   fun k v sp => set_session_properties_overwrites k v sp⟩

theorem c8_session_properties_witness :
    dictGet (pys "mcp_client_name") [(pys "mcp_client_name", DetailVal.vs (pys "cursor"))] =
      some (DetailVal.vs (pys "cursor")) ∧
    dictGet (pys "mcp_client_name")
      (set_client_info_once (some (pys "vscode")) none
        [(pys "mcp_client_name", DetailVal.vs (pys "cursor"))]) =
      some (DetailVal.vs (pys "cursor")) :=
  ⟨by decide,
   c8_session_properties_semantics.1 (pys "mcp_client_name")
     (DetailVal.vs (pys "cursor")) (some (pys "vscode")) none _ (by decide)⟩

/-- C8 counterexample: `set_session_properties` does not honor
first-write-wins — a second call with the same key overwrites the first
value, because the implementation uses `dict.update`. -/
theorem c8_session_properties_counterexample :
    dictGet (pys "k")
        (set_session_properties [(pys "k", DetailVal.vs (pys "v2"))]
          (set_session_properties [(pys "k", DetailVal.vs (pys "v1"))] [])) =
      some (DetailVal.vs (pys "v2")) ∧
    DetailVal.vs (pys "v2") ≠ DetailVal.vs (pys "v1") := by decide

/-- C9 (amended): an exception that is an instance of `ImportError`
(including `ModuleNotFoundError`), is not an HTTP or validation error, whose
`str()` succeeds, and which is not also a `ValueError` whose message matches
the missing-environment-variable pattern, is classified as
`DependencyMissing` with the import-error text in the message and in
`details["import_error"]`; and classification of an `ImportError` never
yields category `UnexpectedError` — the `ImportError` allow-list in the
default branch is unreachable.  (As stated the claim fails for an exotic
class inheriting both `ValueError` and `ImportError` with an env-var
message — see the counterexample.) -/
theorem c9_import_error_classification :
    (∀ (devMode : Bool) (tool : PyStr) (exc : PyExc) (st : Option Int) (m : PyStr),
      exc.isImportError = true → exc.isHTTPError = false →
      is_validation exc = false → exc.strval = some m →
      (exc.isValueError = true → envVarMatch (pyStrip m) = none) →
      classify_exception devMode tool exc st =
        .ok (pys "DependencyMissing",
             pys "Missing dependency or integration: " ++ m,
             dictSet (pys "import_error") (.vs m)
               [(pys "raw_type", .vs exc.raw_type)])) ∧
    (∀ (devMode : Bool) (tool : PyStr) (exc : PyExc) (st : Option Int)
        (cat msg : PyStr) (det : Details),
      exc.isImportError = true →
      classify_exception devMode tool exc st = .ok (cat, msg, det) →
      cat ≠ pys "UnexpectedError") :=
  ⟨fun _ _ _ _ _ hi hh hv hs henv => classify_import_eval hi hh hv hs henv,
   fun _ _ _ _ _ _ _ hi hok => classify_import_never_unexpected hi _ _ _ hok⟩

theorem c9_import_error_witness :
    classify_exception false (pys "t")
        (PyExc.mk (pys "ModuleNotFoundError") (pys "builtins")
          (some (pys "No module named zenml")) false false true false false false)
        none =
      .ok (pys "DependencyMissing",
           pys "Missing dependency or integration: " ++ pys "No module named zenml",
           dictSet (pys "import_error") (.vs (pys "No module named zenml"))
             [(pys "raw_type", .vs (pys "ModuleNotFoundError"))]) :=
  c9_import_error_classification.1 false (pys "t") _ none
    (pys "No module named zenml") rfl rfl (by decide) rfl
    (fun h => Bool.noConfusion h)

/-- C9 counterexample: an exotic exception that is an instance of both
`ValueError` and `ImportError` and whose message matches the
missing-environment-variable pattern is classified as `ConfigurationError`,
not `DependencyMissing`, because the `ValueError` check precedes the
`ImportError` check. -/
theorem c9_import_error_counterexample :
    classify_exception false (pys "t")
        (PyExc.mk (pys "WeirdImportError") (pys "m")
          (some (pys "FOO environment variable not set")) false true true
          false false false) none =
      .ok (pys "ConfigurationError",
           pys "Missing required environment variable: FOO.",
           [(pys "raw_type", .vs (pys "WeirdImportError")),
            (pys "missing_env_var", .vs (pys "FOO"))]) ∧
    pys "ConfigurationError" ≠ pys "DependencyMissing" := by decide

/-- C10 (amended): `extract_size_from_call` looks only at the `size` keyword
argument; it returns `None` — never a boundary-clamped value — whenever the
coerced integer falls outside `1..10000`; it coerces `int` (including
`bool`), numeric-string and finite-`float` values to `int`, returns `None`
for `NaN`, for absent or unparseable values and for every other type, and it
never raises except that an infinite float makes `int()` raise an
`OverflowError` that the `except (ValueError, TypeError)` clause does not
catch.  (As stated — never raising — the claim fails on an infinite float;
see the counterexample.) -/
theorem c10_extract_size_semantics :
    (∀ (fn : PyStr) (args : List PyVal) (kw : PyDict PyVal),
      (∀ v, dictGet (pys "size") kw = some v →
        v ≠ PyVal.vfloat .inf ∧ v ≠ PyVal.vfloat .neginf) →
      ∃ r, extract_size_from_call fn args kw = .ok r) ∧
    (∀ (fn : PyStr) (args : List PyVal) (kw : PyDict PyVal) (n : Int),
      extract_size_from_call fn args kw = .ok (some n) → 1 ≤ n ∧ n ≤ 10000) ∧
    (∀ n : Int, coerce_to_int (.vint n) =
      .ok (if n < 1 ∨ 10000 < n then none else some n)) ∧
    (∀ (s : PyStr) (n : Int), pyIntOfStr s = some n →
      coerce_to_int (.vstr s) = .ok (if n < 1 ∨ 10000 < n then none else some n)) ∧
    (∀ s : PyStr, pyIntOfStr s = none → coerce_to_int (.vstr s) = .ok none) ∧
    (∀ t : Int, coerce_to_int (.vfloat (.finite t)) =
      .ok (if t < 1 ∨ 10000 < t then none else some t)) ∧
    coerce_to_int (.vfloat .nan) = .ok none ∧
    coerce_to_int .vother = .ok none ∧
    coerce_to_int .vnone = .ok none := by
  refine ⟨fun _ _ _ h => extract_size_ok h, fun _ _ _ _ h => extract_size_range h,
    fun n => rfl, ?_, ?_, fun t => rfl, rfl, rfl, rfl⟩
  · intro s n h
    unfold coerce_to_int
    simp only []
    rw [h]
  · intro s h
    unfold coerce_to_int
    simp only []
    rw [h]

theorem c10_extract_size_witness :
    (∃ r, extract_size_from_call (pys "list_runs") []
        [(pys "size", PyVal.vint 50)] = .ok r) ∧
    (extract_size_from_call (pys "list_runs") [] [(pys "size", PyVal.vint 50)] =
        .ok (some 50) → 1 ≤ (50 : Int) ∧ (50 : Int) ≤ 10000) :=
  ⟨c10_extract_size_semantics.1 (pys "list_runs") [] [(pys "size", PyVal.vint 50)]
     (fun v hv => by
       obtain rfl := Option.some.inj hv
       exact ⟨by decide, by decide⟩),
   fun h => c10_extract_size_semantics.2.1 (pys "list_runs") []
     [(pys "size", PyVal.vint 50)] 50 h⟩

/-- C10 counterexample: `extract_size_from_call` raises (an uncaught
`OverflowError` from `int()`) when the `size` keyword argument is an infinite
float, refuting the never-raises part of the claim. -/
theorem c10_extract_size_counterexample :
    extract_size_from_call (pys "f") [] [(pys "size", PyVal.vfloat .inf)] =
      .error .overflowError := by decide

end MCPZenml
